import Mathlib

/-!
Shallow embedding of the Final-Note dead man's switch core:
the switch lifecycle state machine (`src/lib/stateMachine.ts`,
`src/types/switch.ts`), the verification quorum engine (the two
`verificationSystem` variants found in the source), the scheduler passes
(`src/lib/scheduler.ts`), final-message delivery (`emailService.ts`) and the
message confidentiality layer (`src/lib/encryption.ts`).

Identifiers are modelled as `Nat`, timestamps as `Nat` milliseconds since the
epoch (`Date.now()`), and the Prisma record store as explicit lists inside a
`DB` structure.  Every Prisma `$transaction` block becomes one pure update of
the `DB` value, which makes the all-or-nothing commit semantics of the source
explicit.
-/

namespace FinalNote

/-- Milliseconds in one hour, as written `60 * 60 * 1000` in the source. -/
def msPerHour : Nat := 60 * 60 * 1000

/-- Milliseconds in one day, as written `24 * 60 * 60 * 1000` in the source. -/
def msPerDay : Nat := 24 * 60 * 60 * 1000

/-- The `SwitchStatus` enum of `src/types/switch.ts`. -/
inductive SwitchStatus where
  | ACTIVE
  | OVERDUE
  | GRACE_PERIOD
  | PENDING_VERIFICATION
  | VERIFIED
  | EXECUTED
  | CANCELED
  | PAUSED
deriving DecidableEq, Repr

/-- String value of each `SwitchStatus` enum member. -/
def statusStr : SwitchStatus → String
  | .ACTIVE => "ACTIVE"
  | .OVERDUE => "OVERDUE"
  | .GRACE_PERIOD => "GRACE_PERIOD"
  | .PENDING_VERIFICATION => "PENDING_VERIFICATION"
  | .VERIFIED => "VERIFIED"
  | .EXECUTED => "EXECUTED"
  | .CANCELED => "CANCELED"
  | .PAUSED => "PAUSED"

/-- The `VALID_TRANSITIONS` adjacency table of `src/types/switch.ts`. -/
def VALID_TRANSITIONS : SwitchStatus → List SwitchStatus
  | .ACTIVE => [.OVERDUE, .CANCELED, .PAUSED]
  | .OVERDUE => [.GRACE_PERIOD, .ACTIVE, .CANCELED, .PAUSED]
  | .GRACE_PERIOD => [.PENDING_VERIFICATION, .ACTIVE, .CANCELED, .PAUSED, .VERIFIED]
  | .PENDING_VERIFICATION => [.VERIFIED, .ACTIVE, .CANCELED, .PAUSED]
  | .VERIFIED => [.EXECUTED, .ACTIVE, .CANCELED, .PAUSED]
  | .EXECUTED => []
  | .CANCELED => [.ACTIVE]
  | .PAUSED => [.ACTIVE, .CANCELED]

/-- `isValidTransition` of `src/types/switch.ts`. -/
def isValidTransition (src tgt : SwitchStatus) : Bool :=
  (VALID_TRANSITIONS src).contains tgt

/-- The `VerificationVote` enum (`CONFIRM` / `DENY`). -/
inductive VerificationVote where
  | CONFIRM
  | DENY
deriving DecidableEq, Repr

/-- The `result` column of a verification request. -/
inductive VerificationResult where
  | confirmed
  | denied
  | expired
deriving DecidableEq, Repr

/-- The `status` column of an `EmailDelivery` record. -/
inductive DeliveryStatus where
  | PENDING
  | SENT
  | FAILED
deriving DecidableEq, Repr

/-- A row of the `Switch` table (the columns the core subset reads/writes). -/
structure SwitchRec where
  id : Nat
  status : SwitchStatus
  checkInIntervalDays : Nat
  gracePeriodDays : Nat
  verificationWindowDays : Nat
  finalDelayHours : Nat
  useVerifiers : Bool
  requiredConfirmations : Nat
  lastCheckInAt : Option Nat
  nextCheckInDueAt : Option Nat
  gracePeriodEndsAt : Option Nat
  scheduledExecutionAt : Option Nat
deriving DecidableEq, Repr

/-- The `VerifierStatus` enum of `src/types/verifier.ts`. -/
inductive VerifierStatus where
  | INVITED
  | ACCEPTED
  | REVOKED
deriving DecidableEq, Repr

/-- A row of the `Verifier` table. -/
structure VerifierRec where
  id : Nat
  switchId : Nat
  email : String
  name : Option String
  status : VerifierStatus
  inviteToken : Option String
  tokenExpiresAt : Option Nat
deriving DecidableEq, Repr

/-- A row of the `VerificationRequest` table. -/
structure VerificationRequestRec where
  id : Nat
  switchId : Nat
  expiresAt : Nat
  requiredConfirmations : Nat
  completedAt : Option Nat
  result : Option VerificationResult
deriving DecidableEq, Repr

/-- A row of the `VerificationToken` table. -/
structure VerificationTokenRec where
  id : Nat
  verificationRequestId : Nat
  verifierId : Nat
  token : String
  otp : Option String
  otpExpiresAt : Option Nat
  expiresAt : Nat
  usedAt : Option Nat
deriving DecidableEq, Repr

/-- A row of the `VerificationVoteRecord` table. -/
structure VoteRec where
  id : Nat
  verificationRequestId : Nat
  verifierId : Nat
  vote : VerificationVote
deriving DecidableEq, Repr

/-- A row of the `Recipient` table. -/
structure RecipientRec where
  id : Nat
  switchId : Nat
  email : String
  name : Option String
deriving DecidableEq, Repr

/-- A row of the `Message` table (1:1 with its recipient). -/
structure MessageRec where
  id : Nat
  recipientId : Nat
  subject : Option String
  encryptedContent : String
deriving DecidableEq, Repr

/-- A row of the `EmailDelivery` table, the idempotency ledger. -/
structure EmailDeliveryRec where
  id : Nat
  messageId : Nat
  provider : String
  status : DeliveryStatus
  providerMessageId : Option String
  sentAt : Option Nat
  failedAt : Option Nat
  attemptedAt : Option Nat
  errorMessage : Option String
  retryCount : Nat
deriving DecidableEq, Repr

/-- A row of the `CheckInToken` table. -/
structure CheckInTokenRec where
  id : Nat
  switchId : Nat
  token : String
  expiresAt : Nat
  usedAt : Option Nat
deriving DecidableEq, Repr

/-- An append-only audit log entry (the fields the claims observe). -/
structure AuditEntry where
  entityType : String
  entityId : Option Nat
  action : String
deriving DecidableEq, Repr

/-- The transactional record store; `nextId` supplies fresh primary keys. -/
structure DB where
  switches : List SwitchRec
  verifiers : List VerifierRec
  verificationRequests : List VerificationRequestRec
  verificationTokens : List VerificationTokenRec
  votes : List VoteRec
  recipients : List RecipientRec
  messages : List MessageRec
  emailDeliveries : List EmailDeliveryRec
  checkInTokens : List CheckInTokenRec
  auditLog : List AuditEntry
  nextId : Nat
deriving DecidableEq, Repr

/-- `prisma.switch.findUnique({ where: { id } })`. -/
def findSwitch (db : DB) (switchId : Nat) : Option SwitchRec :=
  db.switches.find? (fun s => s.id = switchId)

/-- `prisma.switch.update({ where: { id } })`, as a pure map over the table. -/
def updateSwitch (db : DB) (switchId : Nat) (f : SwitchRec → SwitchRec) : DB :=
  { db with switches := db.switches.map (fun s => if s.id = switchId then f s else s) }

/-- Update one verification request row by id. -/
def updateRequest (db : DB) (reqId : Nat) (f : VerificationRequestRec → VerificationRequestRec) : DB :=
  { db with verificationRequests :=
      db.verificationRequests.map (fun r => if r.id = reqId then f r else r) }

/-- Update one verification token row by id. -/
def updateToken (db : DB) (tokId : Nat) (f : VerificationTokenRec → VerificationTokenRec) : DB :=
  { db with verificationTokens :=
      db.verificationTokens.map (fun t => if t.id = tokId then f t else t) }

/-- Update one email delivery row by id. -/
def updateDelivery (db : DB) (delId : Nat) (f : EmailDeliveryRec → EmailDeliveryRec) : DB :=
  { db with emailDeliveries :=
      db.emailDeliveries.map (fun d => if d.id = delId then f d else d) }

/-- `tx.auditLog.create`: append one audit entry. -/
def appendAudit (db : DB) (e : AuditEntry) : DB :=
  { db with auditLog := db.auditLog ++ [e] }

/-! ## StateMachine (`src/lib/stateMachine.ts`) -/

/-- The `StateTransitionResult` interface of `src/lib/stateMachine.ts`. -/
structure StateTransitionResult where
  success : Bool
  previousStatus : SwitchStatus
  newStatus : SwitchStatus
  error : Option String
deriving DecidableEq, Repr

/-- Target-specific field updates of `transitionSwitchState`: the `switch
(newStatus)` block preparing `updateData`. -/
def transitionUpdate (newStatus : SwitchStatus) (now : Nat) (s : SwitchRec) : SwitchRec :=
  match newStatus with
  | .ACTIVE =>
      { s with status := newStatus
               lastCheckInAt := some now
               nextCheckInDueAt := some (now + s.checkInIntervalDays * msPerDay)
               gracePeriodEndsAt := none
               scheduledExecutionAt := none }
  | .GRACE_PERIOD =>
      { s with status := newStatus
               gracePeriodEndsAt := some (now + s.gracePeriodDays * msPerDay) }
  | .VERIFIED =>
      { s with status := newStatus
               scheduledExecutionAt := some (now + s.finalDelayHours * msPerHour) }
  | .EXECUTED =>
      { s with status := newStatus
               nextCheckInDueAt := none
               gracePeriodEndsAt := none
               scheduledExecutionAt := none }
  | .CANCELED =>
      { s with status := newStatus
               nextCheckInDueAt := none
               gracePeriodEndsAt := none
               scheduledExecutionAt := none }
  | _ => { s with status := newStatus }

/-- `transitionSwitchState` of `src/lib/stateMachine.ts`: one atomic
read-validate-write with an audit append. -/
def transitionSwitchState (db : DB) (switchId : Nat) (newStatus : SwitchStatus)
    (now : Nat) : StateTransitionResult × DB :=
  match findSwitch db switchId with
  | none =>
      ({ success := false, previousStatus := .ACTIVE, newStatus := newStatus,
         error := some "Switch not found" }, db)
  | some currentSwitch =>
      let previousStatus := currentSwitch.status
      if isValidTransition previousStatus newStatus then
        let db1 := updateSwitch db switchId (transitionUpdate newStatus now)
        let db2 := appendAudit db1
          { entityType := "switch", entityId := some switchId,
            action := "switch_status_changed" }
        ({ success := true, previousStatus := previousStatus,
           newStatus := newStatus, error := none }, db2)
      else
        ({ success := false, previousStatus := previousStatus,
           newStatus := newStatus,
           error := some ("Invalid transition from " ++ statusStr previousStatus
                          ++ " to " ++ statusStr newStatus) }, db)

/-- The `validCheckInStates` list inside `checkIn`. -/
def validCheckInStates : List SwitchStatus :=
  [.ACTIVE, .OVERDUE, .GRACE_PERIOD, .PENDING_VERIFICATION, .VERIFIED]

/-- `checkIn` of `src/lib/stateMachine.ts`: forces the switch back to ACTIVE
with fresh timers and force-denies every open verification request for it,
all in one transaction. -/
def checkIn (db : DB) (switchId : Nat) (now : Nat) : StateTransitionResult × DB :=
  match findSwitch db switchId with
  | none =>
      ({ success := false, previousStatus := .ACTIVE, newStatus := .ACTIVE,
         error := some "Switch not found" }, db)
  | some currentSwitch =>
      let previousStatus := currentSwitch.status
      if validCheckInStates.contains previousStatus then
        let db1 := updateSwitch db switchId (fun s =>
          { s with status := .ACTIVE
                   lastCheckInAt := some now
                   nextCheckInDueAt := some (now + s.checkInIntervalDays * msPerDay)
                   gracePeriodEndsAt := none
                   scheduledExecutionAt := none })
        let db2 := { db1 with verificationRequests :=
          db1.verificationRequests.map (fun r =>
            if r.switchId = switchId ∧ r.completedAt = none then
              { r with completedAt := some now, result := some .denied }
            else r) }
        let db3 := appendAudit db2
          { entityType := "switch", entityId := some switchId,
            action := "switch_checked_in" }
        ({ success := true, previousStatus := previousStatus,
           newStatus := .ACTIVE, error := none }, db3)
      else
        ({ success := false, previousStatus := previousStatus,
           newStatus := .ACTIVE,
           error := some ("Cannot check in from " ++ statusStr previousStatus
                          ++ " state") }, db)

/-- `getSwitchStatus` of `src/lib/stateMachine.ts`. -/
def getSwitchStatus (db : DB) (switchId : Nat) : Option SwitchStatus :=
  (findSwitch db switchId).map (fun s => s.status)

/-! ## VerificationQuorumEngine

The source contains two divergent `submitVerificationVote` implementations:
the current `verificationSystem` module (the one that also exports
`verifyOtpAndVote`, hence the one the verify route imports), in which a DENY
vote pauses the switch, and a legacy variant in which a DENY vote resets the
switch to ACTIVE with fresh check-in timers.  Both are embedded below. -/

/-- `prisma.verificationToken.findUnique({ where: { token } })`. -/
def findVerificationToken (db : DB) (token : String) : Option VerificationTokenRec :=
  db.verificationTokens.find? (fun t => t.token = token)

/-- Lookup of the parent request included with a verification token. -/
def findRequest (db : DB) (reqId : Nat) : Option VerificationRequestRec :=
  db.verificationRequests.find? (fun r => r.id = reqId)

/-- The unique-constraint lookup of a prior vote by `(request, verifier)`. -/
def findVote (db : DB) (reqId verifierId : Nat) : Option VoteRec :=
  db.votes.find? (fun v => v.verificationRequestId = reqId ∧ v.verifierId = verifierId)

/-- `tx.verificationVoteRecord.count({ where: { verificationRequestId,
vote: CONFIRM } })`. -/
def countConfirmVotes (db : DB) (reqId : Nat) : Nat :=
  (db.votes.filter (fun v => v.verificationRequestId = reqId ∧ v.vote = .CONFIRM)).length

/-- The `SubmitVoteInput` interface of `src/types/verifier.ts`. -/
structure SubmitVoteInput where
  token : String
  vote : VerificationVote
deriving DecidableEq, Repr

/-- The `'pending' | 'confirmed' | 'denied'` result union of a vote submission. -/
inductive VoteResult where
  | pending
  | confirmed
  | denied
deriving DecidableEq, Repr

/-- The `{ vote, result }` value returned by `submitVerificationVote`. -/
structure SubmitVoteOutcome where
  vote : VoteRec
  result : VoteResult
deriving DecidableEq, Repr

namespace VerificationSystem

/-- `submitVerificationVote` of the current `verificationSystem` module (the
variant whose DENY branch pauses the switch).  Validation failures are the
thrown errors of the source, modelled as `Except.error` with the database
unchanged (no write precedes a throw; the transaction commits atomically). -/
def submitVerificationVote (db : DB) (input : SubmitVoteInput) (now : Nat) :
    Except String (SubmitVoteOutcome × DB) :=
  match findVerificationToken db input.token with
  | none => .error "Invalid verification token"
  | some verificationToken =>
    if verificationToken.expiresAt < now then
      .error "Verification token has expired"
    else if verificationToken.usedAt.isSome then
      .error "This token has already been used"
    else
      match findRequest db verificationToken.verificationRequestId with
      | none => .error "Verification request not found"
      | some verificationRequest =>
        if verificationRequest.completedAt.isSome then
          .error "This verification request has already been completed"
        else if (findVote db verificationRequest.id verificationToken.verifierId).isSome then
          .error "You have already submitted a vote for this verification"
        else
          match findSwitch db verificationRequest.switchId with
          | none => .error "Switch not found"
          | some sw =>
            let db1 := updateToken db verificationToken.id
              (fun t => { t with usedAt := some now })
            let voteRec : VoteRec :=
              { id := db1.nextId,
                verificationRequestId := verificationRequest.id,
                verifierId := verificationToken.verifierId,
                vote := input.vote }
            let db2 := { db1 with votes := db1.votes ++ [voteRec], nextId := db1.nextId + 1 }
            let db3 := appendAudit db2
              { entityType := "verification_vote", entityId := some voteRec.id,
                action := "verification_vote_submitted" }
            match input.vote with
            | .DENY =>
              let db4 := updateRequest db3 verificationRequest.id
                (fun r => { r with completedAt := some now, result := some .denied })
              let db5 := updateSwitch db4 verificationRequest.switchId
                (fun s => { s with status := .PAUSED,
                                   gracePeriodEndsAt := none,
                                   scheduledExecutionAt := none })
              .ok ({ vote := voteRec, result := .denied }, db5)
            | .CONFIRM =>
              let confirmVotes := countConfirmVotes db3 verificationRequest.id
              if verificationRequest.requiredConfirmations ≤ confirmVotes then
                let db4 := updateRequest db3 verificationRequest.id
                  (fun r => { r with completedAt := some now, result := some .confirmed })
                let db5 := updateSwitch db4 verificationRequest.switchId
                  (fun s => { s with status := .VERIFIED,
                                     scheduledExecutionAt :=
                                       some (now + sw.finalDelayHours * msPerHour) })
                .ok ({ vote := voteRec, result := .confirmed }, db5)
              else
                .ok ({ vote := voteRec, result := .pending }, db3)

end VerificationSystem

namespace VerificationSystemLegacy

/-- `submitVerificationVote` of the legacy verification-system variant found
in the source, identical to the current one except that its DENY branch
resets the switch to ACTIVE with fresh check-in timers instead of pausing. -/
def submitVerificationVote (db : DB) (input : SubmitVoteInput) (now : Nat) :
    Except String (SubmitVoteOutcome × DB) :=
  match findVerificationToken db input.token with
  | none => .error "Invalid verification token"
  | some verificationToken =>
    if verificationToken.expiresAt < now then
      .error "Verification token has expired"
    else if verificationToken.usedAt.isSome then
      .error "This token has already been used"
    else
      match findRequest db verificationToken.verificationRequestId with
      | none => .error "Verification request not found"
      | some verificationRequest =>
        if verificationRequest.completedAt.isSome then
          .error "This verification request has already been completed"
        else if (findVote db verificationRequest.id verificationToken.verifierId).isSome then
          .error "You have already submitted a vote for this verification"
        else
          match findSwitch db verificationRequest.switchId with
          | none => .error "Switch not found"
          | some sw =>
            let db1 := updateToken db verificationToken.id
              (fun t => { t with usedAt := some now })
            let voteRec : VoteRec :=
              { id := db1.nextId,
                verificationRequestId := verificationRequest.id,
                verifierId := verificationToken.verifierId,
                vote := input.vote }
            let db2 := { db1 with votes := db1.votes ++ [voteRec], nextId := db1.nextId + 1 }
            let db3 := appendAudit db2
              { entityType := "verification_vote", entityId := some voteRec.id,
                action := "verification_vote_submitted" }
            match input.vote with
            | .DENY =>
              let db4 := updateRequest db3 verificationRequest.id
                (fun r => { r with completedAt := some now, result := some .denied })
              let db5 := updateSwitch db4 verificationRequest.switchId
                (fun s => { s with status := .ACTIVE,
                                   lastCheckInAt := some now,
                                   nextCheckInDueAt :=
                                     some (now + s.checkInIntervalDays * msPerDay),
                                   gracePeriodEndsAt := none,
                                   scheduledExecutionAt := none })
              .ok ({ vote := voteRec, result := .denied }, db5)
            | .CONFIRM =>
              let confirmVotes := countConfirmVotes db3 verificationRequest.id
              if verificationRequest.requiredConfirmations ≤ confirmVotes then
                let db4 := updateRequest db3 verificationRequest.id
                  (fun r => { r with completedAt := some now, result := some .confirmed })
                let db5 := updateSwitch db4 verificationRequest.switchId
                  (fun s => { s with status := .VERIFIED,
                                     scheduledExecutionAt :=
                                       some (now + sw.finalDelayHours * msPerHour) })
                .ok ({ vote := voteRec, result := .confirmed }, db5)
              else
                .ok ({ vote := voteRec, result := .pending }, db3)

end VerificationSystemLegacy

/-- The `{ success, result, error? }` value returned by `verifyOtpAndVote`. -/
structure VerifyOtpOutcome where
  success : Bool
  result : VoteResult
  error : Option String
deriving DecidableEq, Repr

/-- `verifyOtpAndVote` of the current `verificationSystem` module: the
OTP-gated voting path.  `hashOtpFn` stands for the `hashOtp` function of the
encryption module (`verifyOtp otp hash` is `hashOtp otp === hash`).  Failed
checks return `success := false` with the source's error message, after
appending the `verification_otp_failed` audit entries the source writes. -/
def verifyOtpAndVote (hashOtpFn : String → String) (db : DB) (token otp : String)
    (vote : VerificationVote) (now : Nat) : VerifyOtpOutcome × DB :=
  match findVerificationToken db token with
  | none =>
    (⟨false, .pending, some "Invalid verification token"⟩,
     appendAudit db
       { entityType := "verification_request", entityId := none,
         action := "verification_otp_failed" })
  | some verificationToken =>
    if verificationToken.expiresAt < now then
      (⟨false, .pending, some "Verification token has expired"⟩,
       appendAudit db
         { entityType := "verification_request",
           entityId := some verificationToken.verificationRequestId,
           action := "verification_otp_failed" })
    else if verificationToken.usedAt.isSome then
      (⟨false, .pending, some "This token has already been used"⟩, db)
    else if (match verificationToken.otpExpiresAt with
             | some e => decide (e < now)
             | none => false) then
      (⟨false, .pending, some "Verification code has expired"⟩,
       appendAudit db
         { entityType := "verification_request",
           entityId := some verificationToken.verificationRequestId,
           action := "verification_otp_failed" })
    else if (match verificationToken.otp with
             | none => true
             | some stored => decide (¬ hashOtpFn otp = stored)) then
      (⟨false, .pending, some "Invalid verification code"⟩,
       appendAudit db
         { entityType := "verification_request",
           entityId := some verificationToken.verificationRequestId,
           action := "verification_otp_failed" })
    else
      match findRequest db verificationToken.verificationRequestId with
      | none => (⟨false, .pending, some "Verification request not found"⟩, db)
      | some verificationRequest =>
        if verificationRequest.completedAt.isSome then
          (⟨false, .pending, some "This verification request has already been completed"⟩, db)
        else if (findVote db verificationRequest.id verificationToken.verifierId).isSome then
          (⟨false, .pending, some "You have already submitted a vote for this verification"⟩, db)
        else
          let db1 := appendAudit db
            { entityType := "verification_request",
              entityId := some verificationRequest.id,
              action := "verification_otp_verified" }
          match VerificationSystem.submitVerificationVote db1 ⟨token, vote⟩ now with
          | .ok (outcome, db2) => (⟨true, outcome.result, none⟩, db2)
          | .error e => (⟨false, .pending, some e⟩, db1)

/-- `acceptVerifierInvitation` of the `verificationSystem` module. -/
def acceptVerifierInvitation (db : DB) (token : String) (now : Nat) :
    Except String (VerifierRec × DB) :=
  match db.verifiers.find? (fun v => v.inviteToken = some token) with
  | none => .error "Invalid or expired invitation token"
  | some verifier =>
    if (match verifier.tokenExpiresAt with
        | some e => decide (e < now)
        | none => false) then
      .error "Invitation token has expired"
    else if verifier.status = .REVOKED then
      .error "This invitation has been revoked"
    else
      let updated := { verifier with status := VerifierStatus.ACCEPTED,
                                     inviteToken := none, tokenExpiresAt := none }
      let vs := db.verifiers.map (fun v => if v.id = verifier.id then updated else v)
      let db1 := { db with verifiers := vs }
      let db2 := appendAudit db1
        { entityType := "verifier", entityId := some verifier.id,
          action := "verifier_accepted" }
      .ok (updated, db2)

/-! ## Verify route (`app/api/verify/route.ts`, current version) -/

/-- The JSON body of a POST to the verify endpoint; `otp` is optional. -/
structure PostBody where
  token : String
  otp : Option String
  vote : VerificationVote
deriving DecidableEq, Repr

/-- The observable response of the verify route's POST handler. -/
inductive PostResponse where
  | voteOk (vote : VoteRec) (result : VoteResult)
  | otpVoteOk (result : VoteResult)
  | acceptOk (verifier : VerifierRec)
  | badRequest (error : String)
deriving DecidableEq, Repr

/-- JavaScript truthiness of `body.otp`: present and non-empty. -/
def otpTruthy (otp : Option String) : Bool :=
  match otp with
  | none => false
  | some s => ¬ s = ""

/-- The POST handler of the current verify route: `accept-invite` action,
then `if (body.otp)` dispatch to `verifyOtpAndVote`, else the legacy non-OTP
`submitVerificationVote` path.  Thrown errors become 400 responses via the
route's catch block. -/
def POSTverify (hashOtpFn : String → String) (db : DB) (action : Option String)
    (body : PostBody) (now : Nat) : PostResponse × DB :=
  if action = some "accept-invite" then
    match acceptVerifierInvitation db body.token now with
    | .ok (v, db1) => (.acceptOk v, db1)
    | .error e => (.badRequest e, db)
  else if otpTruthy body.otp then
    let otp := body.otp.getD ""
    if ¬ otp.length = 6 then
      (.badRequest "Verification code must be 6 digits", db)
    else
      let (r, db1) := verifyOtpAndVote hashOtpFn db body.token otp body.vote now
      if r.success then (.otpVoteOk r.result, db1)
      else (.badRequest (r.error.getD ""), db1)
  else
    match VerificationSystem.submitVerificationVote db ⟨body.token, body.vote⟩ now with
    | .ok (outcome, db1) => (.voteOk outcome.vote outcome.result, db1)
    | .error e => (.badRequest e, db)

/-! ## EncryptionService (`src/lib/encryption.ts`)

The node `crypto` primitives (scrypt, AES-256-GCM, base64) are external
collaborators; they are collected in a `NodeCrypto` record of opaque-to-us
functions, and the few properties `encrypt`/`decrypt` rely on (base64 never
emits `:` and round-trips; GCM decryption with the matching key, iv and tag
inverts encryption) appear as explicit hypotheses of the theorems.  The
`encrypt`/`decrypt` wrappers themselves — field layout, `:` joining and
splitting, the falsy-field checks, and the catch-all generic error — are
translated directly from the source. -/

/-- The node `crypto` primitives used by `src/lib/encryption.ts`.  Bytes are
`List Nat`.  `cipherEnc key iv plaintext` returns the base64 ciphertext
string (`cipher.update(plaintext, 'utf8', 'base64') + cipher.final('base64')`)
together with the auth tag; `cipherDec key iv tag ct` is
`decipher.update(ct, 'base64', 'utf8') + decipher.final('utf8')`, `none` when
authentication fails. -/
structure NodeCrypto where
  hexDecode : String → List Nat
  scryptSync : List Nat → List Nat → Nat → List Nat
  b64encode : List Nat → String
  b64decode : String → List Nat
  cipherEnc : List Nat → List Nat → String → String × List Nat
  cipherDec : List Nat → List Nat → List Nat → String → Option String
  hashOtp : String → String

/-- Worker for `splitColon`, accumulating the current field in reverse. -/
def splitColonAux : List Char → List Char → List String
  | [], acc => [String.mk acc.reverse]
  | ch :: cs, acc =>
      if ch = ':' then String.mk acc.reverse :: splitColonAux cs []
      else splitColonAux cs (ch :: acc)

/-- JavaScript `encryptedData.split(':')`. -/
def splitColon (s : String) : List String :=
  splitColonAux s.data []

/-- `getEncryptionKey` validity: `ENCRYPTION_KEY` must be 64 hex characters
(the source only checks presence and length before `Buffer.from(key, 'hex')`). -/
def validEncryptionKey (env : String) : Bool :=
  env.length = 64

/-- `encrypt` of `src/lib/encryption.ts`.  The fresh random `salt` and `iv`
are explicit arguments; the result is the `{ encrypted, iv }` pair, with
`encrypted = salt:iv:authTag:ciphertext` (all base64, joined by `:`). -/
def encrypt (c : NodeCrypto) (env : String) (salt iv : List Nat)
    (plaintext : String) : Except String (String × String) :=
  if validEncryptionKey env then
    let key := c.hexDecode env
    let derivedKey := c.scryptSync key salt 32
    let encTag := c.cipherEnc derivedKey iv plaintext
    let combined := c.b64encode salt ++ ":" ++ c.b64encode iv ++ ":"
                    ++ c.b64encode encTag.2 ++ ":" ++ encTag.1
    .ok (combined, c.b64encode iv)
  else
    .error "ENCRYPTION_KEY must be 64 hex characters"

/-- `decrypt` of `src/lib/encryption.ts`.  The whole body sits in a
`try/catch` whose catch rethrows the single generic message, so every failure
path — missing/short key, wrong field count, falsy (empty) field, GCM
auth failure — produces exactly `"Decryption failed"`. -/
def decrypt (c : NodeCrypto) (env : String) (encryptedData : String) :
    Except String String :=
  if validEncryptionKey env then
    match splitColon encryptedData with
    | [saltB64, ivB64, authTagB64, encrypted] =>
      if saltB64 = "" ∨ ivB64 = "" ∨ authTagB64 = "" ∨ encrypted = "" then
        .error "Decryption failed"
      else
        let key := c.hexDecode env
        let salt := c.b64decode saltB64
        let iv := c.b64decode ivB64
        let authTag := c.b64decode authTagB64
        let derivedKey := c.scryptSync key salt 32
        match c.cipherDec derivedKey iv authTag encrypted with
        | some decrypted => .ok decrypted
        | none => .error "Decryption failed"
    | _ => .error "Decryption failed"
  else
    .error "Decryption failed"

/-! ## Scheduler (`src/lib/scheduler.ts`) and final delivery (`emailService.ts`) -/

/-- The `{ processed, expired, errors }` summary of `processVerificationExpiry`. -/
structure ExpirySummary where
  processed : Nat
  expired : Nat
  errors : List String
deriving DecidableEq, Repr

/-- The per-request transaction body of `processVerificationExpiry`: mark the
request expired, set the switch to PAUSED (a direct status write, not a state
machine call), and append the audit entry — all or nothing.  A missing switch
makes `tx.switch.update` throw, rolling the transaction back, which the
per-request catch records as an error. -/
def expireOneRequest (now : Nat) (acc : (Nat × List String) × DB)
    (request : VerificationRequestRec) : (Nat × List String) × DB :=
  let db := acc.2
  match findSwitch db request.switchId with
  | none =>
      ((acc.1.1, acc.1.2 ++ ["Error expiring request " ++ toString request.id]), db)
  | some _ =>
      let db1 := updateRequest db request.id
        (fun r => { r with completedAt := some now, result := some .expired })
      let db2 := updateSwitch db1 request.switchId
        (fun s => { s with status := .PAUSED })
      let db3 := appendAudit db2
        { entityType := "verification_request", entityId := some request.id,
          action := "verification_expired" }
      ((acc.1.1 + 1, acc.1.2), db3)

/-- `processVerificationExpiry` of `src/lib/scheduler.ts`: every open
verification request whose `expiresAt` is before `now` is completed as
expired and its switch paused. -/
def processVerificationExpiry (db : DB) (now : Nat) : ExpirySummary × DB :=
  let expiredRequests := db.verificationRequests.filter
    (fun r => r.completedAt = none ∧ r.expiresAt < now)
  let res := expiredRequests.foldl (expireOneRequest now) ((0, []), db)
  ({ processed := expiredRequests.length, expired := res.1.1,
     errors := res.1.2 }, res.2)

/-- `sendFinalMessage` of `emailService.ts`.  `emailOk` is the external mail
transport: given the id of the pending delivery record it reports whether
`sendEmail` succeeded.  The existing-SENT check is the idempotency short
circuit; `Except.error` models the thrown errors (missing message, decryption
failure), which occur before any delivery record is written. -/
def sendFinalMessage (c : NodeCrypto) (env : String) (emailOk : Nat → Bool)
    (db : DB) (messageId : Nat) (now : Nat) : Except String (Bool × Nat) × DB :=
  match db.emailDeliveries.find? (fun d => d.messageId = messageId ∧ d.status = .SENT) with
  | some existingDelivery => (.ok (true, existingDelivery.id), db)
  | none =>
    match db.messages.find? (fun m => m.id = messageId) with
    | none => (.error "Message not found", db)
    | some message =>
      match db.recipients.find? (fun r => r.id = message.recipientId) with
      | none => (.error "Recipient not found", db)
      | some _recipient =>
        match decrypt c env message.encryptedContent with
        | .error e => (.error e, db)
        | .ok _content =>
          let delivery : EmailDeliveryRec :=
            { id := db.nextId, messageId := messageId, provider := "nodemailer",
              status := .PENDING, providerMessageId := none, sentAt := none,
              failedAt := none, attemptedAt := none, errorMessage := none,
              retryCount := 0 }
          let db1 := { db with emailDeliveries := db.emailDeliveries ++ [delivery],
                               nextId := db.nextId + 1 }
          if emailOk delivery.id then
            let db2 := updateDelivery db1 delivery.id
              (fun d => { d with status := .SENT,
                                 providerMessageId := some "provider-message-id",
                                 sentAt := some now, attemptedAt := some now })
            let db3 := appendAudit db2
              { entityType := "email_delivery", entityId := some delivery.id,
                action := "message_sent" }
            (.ok (true, delivery.id), db3)
          else
            let db2 := updateDelivery db1 delivery.id
              (fun d => { d with status := .FAILED,
                                 errorMessage := some "send failed",
                                 failedAt := some now, attemptedAt := some now,
                                 retryCount := d.retryCount + 1 })
            (.ok (false, delivery.id), db2)

/-- The recipients of a switch with their 1:1 messages, as loaded by the
`include` of `executeVerifiedSwitches`. -/
def recipientsOf (db : DB) (switchId : Nat) : List RecipientRec :=
  db.recipients.filter (fun r => r.switchId = switchId)

/-- The inner `for (const recipient of sw.recipients)` loop of
`executeVerifiedSwitches`: sends each recipient's message in order,
collecting per-message failure entries; a thrown error (`Except.error`)
aborts the remaining sends, as an exception aborts the `for` loop. -/
def sendMessagesLoop (c : NodeCrypto) (env : String) (emailOk : Nat → Bool)
    (now swId : Nat) : List RecipientRec → DB → List String →
    Except String (List String) × DB
  | [], db, errs => (.ok errs, db)
  | r :: rest, db, errs =>
    match db.messages.find? (fun m => m.recipientId = r.id) with
    | none => sendMessagesLoop c env emailOk now swId rest db errs
    | some message =>
      match sendFinalMessage c env emailOk db message.id now with
      | (.ok (true, _), db1) => sendMessagesLoop c env emailOk now swId rest db1 errs
      | (.ok (false, _), db1) =>
          sendMessagesLoop c env emailOk now swId rest db1
            (errs ++ ["Failed to send message " ++ toString message.id
                      ++ " for switch " ++ toString swId])
      | (.error e, db1) => (.error e, db1)

/-- The per-switch body of `executeVerifiedSwitches`: send all messages, then
mark the switch EXECUTED even with partial failures; the surrounding `try`
catches a thrown send, records one error, and skips the transition. -/
def executeOneSwitch (c : NodeCrypto) (env : String) (emailOk : Nat → Bool)
    (now : Nat) (db : DB) (sw : SwitchRec) : (Nat × List String) × DB :=
  match sendMessagesLoop c env emailOk now sw.id (recipientsOf db sw.id) db [] with
  | (.error e, db1) =>
      ((0, ["Error executing switch " ++ toString sw.id ++ ": " ++ e]), db1)
  | (.ok errs, db1) =>
      let tr := transitionSwitchState db1 sw.id .EXECUTED now
      if tr.1.success then
        let db3 := appendAudit tr.2
          { entityType := "switch", entityId := some sw.id,
            action := "switch_executed" }
        ((1, errs), db3)
      else
        ((0, errs ++ ["Failed to mark switch " ++ toString sw.id
                      ++ " as executed"]), tr.2)

/-- The `{ processed, executed, errors }` summary of `executeVerifiedSwitches`. -/
structure ExecutionSummary where
  processed : Nat
  executed : Nat
  errors : List String
deriving DecidableEq, Repr

/-- `executeVerifiedSwitches` of `src/lib/scheduler.ts`: for every switch in
status VERIFIED whose `scheduledExecutionAt` is before `now`, attempt all
final messages and transition the switch to EXECUTED. -/
def executeVerifiedSwitches (c : NodeCrypto) (env : String) (emailOk : Nat → Bool)
    (db : DB) (now : Nat) : ExecutionSummary × DB :=
  let readyForExecution := db.switches.filter
    (fun s => s.status = .VERIFIED &&
      match s.scheduledExecutionAt with
      | some t => decide (t < now)
      | none => false)
  let step := fun (acc : (Nat × List String) × DB) (sw : SwitchRec) =>
    let r := executeOneSwitch c env emailOk now acc.2 sw
    ((acc.1.1 + r.1.1, acc.1.2 ++ r.1.2), r.2)
  let res := readyForExecution.foldl step ((0, []), db)
  ({ processed := readyForExecution.length, executed := res.1.1,
     errors := res.1.2 }, res.2)

/-- `verifyAndUseCheckInToken` of `src/lib/scheduler.ts`: `null` for a
missing or expired token; an already-used token still returns its switch id
(deliberate idempotent re-use); an unused one is marked used. -/
def verifyAndUseCheckInToken (db : DB) (token : String) (now : Nat) :
    Option Nat × DB :=
  match db.checkInTokens.find? (fun t => t.token = token) with
  | none => (none, db)
  | some checkInToken =>
    if checkInToken.expiresAt < now then
      (none, db)
    else if checkInToken.usedAt.isSome then
      (some checkInToken.switchId, db)
    else
      let ts := db.checkInTokens.map (fun t =>
        if t.id = checkInToken.id then { t with usedAt := some now } else t)
      (some checkInToken.switchId, { db with checkInTokens := ts })

/-! ## Helper lemmas about the record store -/

theorem find?_map_of_pred_inv {α : Type} (g : α → α) (p : α → Bool)
    (h : ∀ a, p (g a) = p a) (l : List α) :
    (l.map g).find? p = (l.find? p).map g := by
  induction l with
  | nil => rfl
  | cons a t ih =>
      by_cases hpa : p a = true
      · simp [List.find?_cons_of_pos, hpa, h a]
      · have hpa' : p a = false := by
          cases hq : p a
          · rfl
          · exact absurd hq hpa
        simp [List.find?_cons_of_neg, hpa', h a, ih]

theorem findSwitch_updateRequest (db : DB) (i : Nat)
    (f : VerificationRequestRec → VerificationRequestRec) (id : Nat) :
    findSwitch (updateRequest db i f) id = findSwitch db id := rfl

theorem findSwitch_updateToken (db : DB) (i : Nat)
    (f : VerificationTokenRec → VerificationTokenRec) (id : Nat) :
    findSwitch (updateToken db i f) id = findSwitch db id := rfl

theorem findSwitch_updateDelivery (db : DB) (i : Nat)
    (f : EmailDeliveryRec → EmailDeliveryRec) (id : Nat) :
    findSwitch (updateDelivery db i f) id = findSwitch db id := rfl

theorem findSwitch_appendAudit (db : DB) (e : AuditEntry) (id : Nat) :
    findSwitch (appendAudit db e) id = findSwitch db id := rfl

theorem findRequest_updateSwitch (db : DB) (i : Nat)
    (f : SwitchRec → SwitchRec) (id : Nat) :
    findRequest (updateSwitch db i f) id = findRequest db id := rfl

theorem findRequest_updateToken (db : DB) (i : Nat)
    (f : VerificationTokenRec → VerificationTokenRec) (id : Nat) :
    findRequest (updateToken db i f) id = findRequest db id := rfl

theorem findRequest_appendAudit (db : DB) (e : AuditEntry) (id : Nat) :
    findRequest (appendAudit db e) id = findRequest db id := rfl

theorem findSwitch_updateSwitch (db : DB) (sid : Nat) (f : SwitchRec → SwitchRec)
    (hf : ∀ s, (f s).id = s.id) (id : Nat) :
    findSwitch (updateSwitch db sid f) id =
      (findSwitch db id).map (fun s => if s.id = sid then f s else s) := by
  unfold findSwitch updateSwitch
  apply find?_map_of_pred_inv
  intro a
  by_cases ha : a.id = sid
  · simp [ha, hf a]
  · simp [ha]

theorem findRequest_updateRequest (db : DB) (rid : Nat)
    (f : VerificationRequestRec → VerificationRequestRec)
    (hf : ∀ r, (f r).id = r.id) (id : Nat) :
    findRequest (updateRequest db rid f) id =
      (findRequest db id).map (fun r => if r.id = rid then f r else r) := by
  unfold findRequest updateRequest
  apply find?_map_of_pred_inv
  intro a
  by_cases ha : a.id = rid
  · simp [ha, hf a]
  · simp [ha]

theorem transitionUpdate_id (t : SwitchStatus) (now : Nat) (s : SwitchRec) :
    (transitionUpdate t now s).id = s.id := by
  cases t <;> rfl

theorem transitionUpdate_status (t : SwitchStatus) (now : Nat) (s : SwitchRec) :
    (transitionUpdate t now s).status = t := by
  cases t <;> rfl

/-- If the record `getSwitchStatus` observes for `id` is the same record the
state machine validates for `sid`, the two lookups agree when the ids agree. -/
theorem findSwitch_eq_of_id_eq (db : DB) (id sid : Nat) (s : SwitchRec)
    (hfind : findSwitch db id = some s) (hid : s.id = sid) :
    findSwitch db sid = some s := by
  have hids : id = sid := by
    have hmem := List.find?_some hfind
    have : decide (s.id = id) = true := hmem
    have h2 : s.id = id := of_decide_eq_true this
    omega
  rw [hids] at hfind
  exact hfind

/-- `getSwitchStatus` unfolded to the underlying lookup. -/
theorem getSwitchStatus_eq (db : DB) (id : Nat) :
    getSwitchStatus db id = (findSwitch db id).map (fun s => s.status) := rfl

/-- Any operation that goes through the state machine, as invoked by owners,
routes, or the scheduler. -/
inductive StateMachineOp where
  | transitionOp (switchId : Nat) (target : SwitchStatus) (now : Nat)
  | checkInOp (switchId : Nat) (now : Nat)

/-- Apply one state machine operation, keeping only the resulting store. -/
def applyStateMachineOp (db : DB) : StateMachineOp → DB
  | .transitionOp sid tgt now => (transitionSwitchState db sid tgt now).2
  | .checkInOp sid now => (checkIn db sid now).2

/-- Apply a sequence of state machine operations. -/
def applyStateMachineOps (db : DB) (ops : List StateMachineOp) : DB :=
  ops.foldl applyStateMachineOp db

theorem executed_preserved_transition (db : DB) (sid : Nat) (tgt : SwitchStatus)
    (now id : Nat) (h : getSwitchStatus db id = some .EXECUTED) :
    getSwitchStatus (transitionSwitchState db sid tgt now).2 id = some .EXECUTED := by
  rw [getSwitchStatus_eq] at h
  obtain ⟨s, hs, hstat⟩ := Option.map_eq_some'.mp h
  unfold transitionSwitchState
  cases hfind : findSwitch db sid with
  | none => simpa [getSwitchStatus_eq, hs] using hstat
  | some sw =>
      by_cases hv : isValidTransition sw.status tgt = true
      · simp only [hv, if_true]
        rw [getSwitchStatus_eq, findSwitch_appendAudit,
            findSwitch_updateSwitch db sid _ (transitionUpdate_id tgt now), hs]
        by_cases hid : s.id = sid
        · exfalso
          have heq : findSwitch db sid = some s := findSwitch_eq_of_id_eq db id sid s hs hid
          rw [hfind] at heq
          injection heq with hsw
          rw [hsw, hstat] at hv
          simp [isValidTransition, VALID_TRANSITIONS] at hv
        · simp [hid, hstat]
      · simp only [hv, if_false]
        simpa [getSwitchStatus_eq, hs] using hstat

theorem executed_preserved_checkIn (db : DB) (sid now id : Nat)
    (h : getSwitchStatus db id = some .EXECUTED) :
    getSwitchStatus (checkIn db sid now).2 id = some .EXECUTED := by
  rw [getSwitchStatus_eq] at h
  obtain ⟨s, hs, hstat⟩ := Option.map_eq_some'.mp h
  unfold checkIn
  cases hfind : findSwitch db sid with
  | none => simpa [getSwitchStatus_eq, hs] using hstat
  | some sw =>
      by_cases hv : validCheckInStates.contains sw.status = true
      · simp only [hv, if_true]
        rw [getSwitchStatus_eq, findSwitch_appendAudit]
        have hreq : ∀ (d : DB) (rs : List VerificationRequestRec),
            findSwitch { d with verificationRequests := rs } id = findSwitch d id :=
          fun _ _ => rfl
        rw [hreq,
            findSwitch_updateSwitch db sid
              (fun s => { s with status := .ACTIVE,
                                 lastCheckInAt := some now,
                                 nextCheckInDueAt := some (now + s.checkInIntervalDays * msPerDay),
                                 gracePeriodEndsAt := none,
                                 scheduledExecutionAt := none })
              (fun _ => rfl) id,
            hs]
        by_cases hid : s.id = sid
        · exfalso
          have heq : findSwitch db sid = some s := findSwitch_eq_of_id_eq db id sid s hs hid
          rw [hfind] at heq
          injection heq with hsw
          rw [hsw, hstat] at hv
          simp [validCheckInStates] at hv
        · simp [hid, hstat]
      · simp only [hv, if_false]
        simpa [getSwitchStatus_eq, hs] using hstat

theorem executed_preserved_ops (db : DB) (id : Nat) (ops : List StateMachineOp)
    (h : getSwitchStatus db id = some .EXECUTED) :
    getSwitchStatus (applyStateMachineOps db ops) id = some .EXECUTED := by
  induction ops generalizing db with
  | nil => exact h
  | cons op rest ih =>
      apply ih
      cases op with
      | transitionOp sid tgt now => exact executed_preserved_transition db sid tgt now id h
      | checkInOp sid now => exact executed_preserved_checkIn db sid now id h

/-! ## Claim theorems: state machine -/

/-- C6: `transitionSwitchState` fails with a not-found error when the switch
does not exist; fails with an invalid-transition error, leaving the store
unchanged, whenever the target is not in the current status's allowed set of
the `VALID_TRANSITIONS` adjacency; changes a stored status only along edges
of that graph; `EXECUTED` has an empty allowed set; and a switch observed in
`EXECUTED` remains `EXECUTED` under every sequence of operations that goes
through the state machine (`transitionSwitchState` and `checkIn`). -/
theorem C6_transition_graph :
    (∀ db sid tgt now, findSwitch db sid = none →
        transitionSwitchState db sid tgt now =
          ({ success := false, previousStatus := .ACTIVE, newStatus := tgt,
             error := some "Switch not found" }, db))
    ∧ (∀ db sid tgt now sw, findSwitch db sid = some sw →
        isValidTransition sw.status tgt = false →
        transitionSwitchState db sid tgt now =
          ({ success := false, previousStatus := sw.status, newStatus := tgt,
             error := some ("Invalid transition from " ++ statusStr sw.status
                            ++ " to " ++ statusStr tgt) }, db))
    ∧ (∀ db sid tgt now id s s2, findSwitch db id = some s →
        findSwitch (transitionSwitchState db sid tgt now).2 id = some s2 →
        s2.status = s.status ∨ isValidTransition s.status s2.status = true)
    ∧ VALID_TRANSITIONS .EXECUTED = []
    ∧ (∀ db id ops, getSwitchStatus db id = some .EXECUTED →
        getSwitchStatus (applyStateMachineOps db ops) id = some .EXECUTED) := by
  refine ⟨?_, ?_, ?_, rfl, fun db id ops h => executed_preserved_ops db id ops h⟩
  · intro db sid tgt now hfind
    unfold transitionSwitchState
    rw [hfind]
  · intro db sid tgt now sw hfind hv
    unfold transitionSwitchState
    rw [hfind]
    simp [hv]
  · intro db sid tgt now id s s2 hs hs2
    cases hfind : findSwitch db sid with
    | none =>
        have hdb : (transitionSwitchState db sid tgt now).2 = db := by
          unfold transitionSwitchState
          rw [hfind]
        rw [hdb, hs] at hs2
        injection hs2 with hss
        left
        rw [← hss]
    | some sw =>
        by_cases hv : isValidTransition sw.status tgt = true
        · have hdb : (transitionSwitchState db sid tgt now).2 =
              appendAudit (updateSwitch db sid (transitionUpdate tgt now))
                { entityType := "switch", entityId := some sid,
                  action := "switch_status_changed" } := by
            unfold transitionSwitchState
            rw [hfind]
            simp [hv]
          rw [hdb, findSwitch_appendAudit,
              findSwitch_updateSwitch db sid _ (transitionUpdate_id tgt now), hs,
              Option.map_some'] at hs2
          by_cases hid : s.id = sid
          · have heq : findSwitch db sid = some s := findSwitch_eq_of_id_eq db id sid s hs hid
            rw [hfind] at heq
            injection heq with hsw
            rw [if_pos hid] at hs2
            injection hs2 with hss
            right
            rw [← hss, transitionUpdate_status]
            rw [hsw] at hv
            exact hv
          · rw [if_neg hid] at hs2
            injection hs2 with hss
            left
            rw [← hss]
        · have hdb : (transitionSwitchState db sid tgt now).2 = db := by
            unfold transitionSwitchState
            rw [hfind]
            simp [hv]
          rw [hdb, hs] at hs2
          injection hs2 with hss
          left
          rw [← hss]

/-- An empty record store. -/
def emptyDB : DB :=
  { switches := [], verifiers := [], verificationRequests := [],
    verificationTokens := [], votes := [], recipients := [], messages := [],
    emailDeliveries := [], checkInTokens := [], auditLog := [], nextId := 0 }

/-- A switch that has already executed. -/
def swExecuted : SwitchRec :=
  { id := 1, status := .EXECUTED, checkInIntervalDays := 7, gracePeriodDays := 3,
    verificationWindowDays := 5, finalDelayHours := 24, useVerifiers := false,
    requiredConfirmations := 1, lastCheckInAt := none, nextCheckInDueAt := none,
    gracePeriodEndsAt := none, scheduledExecutionAt := none }

/-- A store holding only an EXECUTED switch. -/
def dbExecuted : DB := { emptyDB with switches := [swExecuted], nextId := 2 }

/-- Witness for C6 at concrete inputs: the not-found failure on the empty
store, the invalid-transition failure out of EXECUTED, and EXECUTED surviving
a concrete sequence of state machine operations. -/
theorem C6_transition_graph_witness :
    transitionSwitchState emptyDB 1 .PAUSED 0 =
      ({ success := false, previousStatus := .ACTIVE, newStatus := .PAUSED,
         error := some "Switch not found" }, emptyDB)
    ∧ transitionSwitchState dbExecuted 1 .ACTIVE 0 =
      ({ success := false, previousStatus := .EXECUTED, newStatus := .ACTIVE,
         error := some ("Invalid transition from " ++ statusStr .EXECUTED
                        ++ " to " ++ statusStr .ACTIVE) }, dbExecuted)
    ∧ getSwitchStatus (applyStateMachineOps dbExecuted
        [.transitionOp 1 .ACTIVE 5, .checkInOp 1 6, .transitionOp 1 .CANCELED 7]) 1 =
      some .EXECUTED :=
  ⟨C6_transition_graph.1 emptyDB 1 .PAUSED 0 (by decide),
   C6_transition_graph.2.1 dbExecuted 1 .ACTIVE 0 swExecuted (by decide) (by decide),
   C6_transition_graph.2.2.2.2 dbExecuted 1
     [.transitionOp 1 .ACTIVE 5, .checkInOp 1 6, .transitionOp 1 .CANCELED 7]
     (by decide)⟩

/-- C4: `checkIn` succeeds exactly when the switch exists and its status is
in `validCheckInStates` = {ACTIVE, OVERDUE, GRACE_PERIOD,
PENDING_VERIFICATION, VERIFIED}; every failure carries an error and leaves
the store unchanged; and on success, in one transaction, the switch is forced
to ACTIVE with `lastCheckInAt = now`,
`nextCheckInDueAt = now + checkInIntervalDays` (in ms), cleared grace and
execution timers, and every open verification request of the switch is
completed with result denied. -/
theorem C4_checkIn_spec (db : DB) (sid now : Nat) :
    ((checkIn db sid now).1.success = true ↔
      ∃ sw, findSwitch db sid = some sw ∧ sw.status ∈ validCheckInStates)
    ∧ ((checkIn db sid now).1.success = false →
        (checkIn db sid now).1.error.isSome = true ∧ (checkIn db sid now).2 = db)
    ∧ (∀ sw, findSwitch db sid = some sw → sw.status ∈ validCheckInStates →
        findSwitch (checkIn db sid now).2 sid =
          some { sw with status := .ACTIVE,
                         lastCheckInAt := some now,
                         nextCheckInDueAt := some (now + sw.checkInIntervalDays * msPerDay),
                         gracePeriodEndsAt := none,
                         scheduledExecutionAt := none }
        ∧ (checkIn db sid now).2.verificationRequests =
            db.verificationRequests.map (fun r =>
              if r.switchId = sid ∧ r.completedAt = none then
                { r with completedAt := some now, result := some .denied }
              else r)) := by
  refine ⟨?_, ?_, ?_⟩
  · constructor
    · intro hsucc
      cases hfind : findSwitch db sid with
      | none =>
          exfalso
          unfold checkIn at hsucc
          rw [hfind] at hsucc
          simp at hsucc
      | some sw =>
          refine ⟨sw, rfl, ?_⟩
          by_cases hm : sw.status ∈ validCheckInStates
          · exact hm
          · exfalso
            unfold checkIn at hsucc
            rw [hfind] at hsucc
            simp [hm] at hsucc
    · rintro ⟨sw, hfind, hmem⟩
      unfold checkIn
      rw [hfind]
      simp [hmem]
  · intro hfail
    cases hfind : findSwitch db sid with
    | none =>
        unfold checkIn
        rw [hfind]
        exact ⟨rfl, rfl⟩
    | some sw =>
        by_cases hm : sw.status ∈ validCheckInStates
        · exfalso
          unfold checkIn at hfail
          rw [hfind] at hfail
          simp [hm] at hfail
        · unfold checkIn
          rw [hfind]
          simp [hm]
  · intro sw hfind hmem
    have hid : sw.id = sid := by
      have := List.find?_some hfind
      exact of_decide_eq_true this
    have hdb : (checkIn db sid now).2 =
        appendAudit
          { (updateSwitch db sid (fun s =>
              { s with status := .ACTIVE,
                       lastCheckInAt := some now,
                       nextCheckInDueAt := some (now + s.checkInIntervalDays * msPerDay),
                       gracePeriodEndsAt := none,
                       scheduledExecutionAt := none })) with
            verificationRequests :=
              (updateSwitch db sid (fun s =>
                { s with status := .ACTIVE,
                         lastCheckInAt := some now,
                         nextCheckInDueAt := some (now + s.checkInIntervalDays * msPerDay),
                         gracePeriodEndsAt := none,
                         scheduledExecutionAt := none })).verificationRequests.map (fun r =>
                if r.switchId = sid ∧ r.completedAt = none then
                  { r with completedAt := some now, result := some .denied }
                else r) }
          { entityType := "switch", entityId := some sid,
            action := "switch_checked_in" } := by
      unfold checkIn
      rw [hfind]
      simp [hmem]
    constructor
    · rw [hdb]
      have hswfind : ∀ (d : DB) (rs : List VerificationRequestRec),
          findSwitch { d with verificationRequests := rs } sid = findSwitch d sid :=
        fun _ _ => rfl
      rw [findSwitch_appendAudit, hswfind,
          findSwitch_updateSwitch db sid
            (fun s => { s with status := .ACTIVE,
                               lastCheckInAt := some now,
                               nextCheckInDueAt := some (now + s.checkInIntervalDays * msPerDay),
                               gracePeriodEndsAt := none,
                               scheduledExecutionAt := none })
            (fun _ => rfl) sid,
          hfind, Option.map_some', if_pos hid]
    · rw [hdb]
      rfl

/-- A switch sitting in PENDING_VERIFICATION, used by several witnesses. -/
def swPending : SwitchRec :=
  { id := 1, status := .PENDING_VERIFICATION, checkInIntervalDays := 7,
    gracePeriodDays := 3, verificationWindowDays := 5, finalDelayHours := 24,
    useVerifiers := true, requiredConfirmations := 2, lastCheckInAt := some 0,
    nextCheckInDueAt := some 100, gracePeriodEndsAt := none,
    scheduledExecutionAt := none }

/-- An open verification request for `swPending`. -/
def reqOpen : VerificationRequestRec :=
  { id := 2, switchId := 1, expiresAt := 1000, requiredConfirmations := 2,
    completedAt := none, result := none }

/-- A store with a pending-verification switch and its open request. -/
def dbPending : DB :=
  { emptyDB with switches := [swPending], verificationRequests := [reqOpen],
                 nextId := 10 }

/-- Witness for C4: a concrete check-in from PENDING_VERIFICATION succeeds,
reactivates the switch with fresh timers, and force-denies the open request. -/
theorem C4_checkIn_spec_witness :
    ((checkIn dbPending 1 50).1.success = true ↔
      ∃ sw, findSwitch dbPending 1 = some sw ∧ sw.status ∈ validCheckInStates)
    ∧ findSwitch (checkIn dbPending 1 50).2 1 =
        some { swPending with status := .ACTIVE,
                              lastCheckInAt := some 50,
                              nextCheckInDueAt := some (50 + swPending.checkInIntervalDays * msPerDay),
                              gracePeriodEndsAt := none,
                              scheduledExecutionAt := none }
    ∧ (checkIn dbPending 1 50).2.verificationRequests =
        dbPending.verificationRequests.map (fun r =>
          if r.switchId = 1 ∧ r.completedAt = none then
            { r with completedAt := some 50, result := some .denied }
          else r) :=
  ⟨(C4_checkIn_spec dbPending 1 50).1,
   ((C4_checkIn_spec dbPending 1 50).2.2 swPending (by decide) (by decide)).1,
   ((C4_checkIn_spec dbPending 1 50).2.2 swPending (by decide) (by decide)).2⟩

/-- C10: `verifyAndUseCheckInToken` returns the token's switch id for every
existing, unexpired check-in token, including already-used ones (deliberate
reuse within the validity window), and returns `none` exactly when the token
does not exist or its `expiresAt` is strictly in the past. -/
theorem C10_checkInToken_reusable (db : DB) (token : String) (now : Nat) :
    (∀ t, db.checkInTokens.find? (fun x => x.token = token) = some t →
        ¬ t.expiresAt < now →
        (verifyAndUseCheckInToken db token now).1 = some t.switchId)
    ∧ ((verifyAndUseCheckInToken db token now).1 = none ↔
        db.checkInTokens.find? (fun x => x.token = token) = none ∨
        ∃ t, db.checkInTokens.find? (fun x => x.token = token) = some t ∧
          t.expiresAt < now) := by
  constructor
  · intro t hfind hexp
    unfold verifyAndUseCheckInToken
    rw [hfind]
    by_cases hused : t.usedAt.isSome = true
    · simp [hexp, hused]
    · simp [hexp, hused]
  · constructor
    · intro hnone
      cases hfind : db.checkInTokens.find? (fun x => x.token = token) with
      | none => exact Or.inl rfl
      | some t =>
          right
          refine ⟨t, rfl, ?_⟩
          by_cases hexp : t.expiresAt < now
          · exact hexp
          · exfalso
            unfold verifyAndUseCheckInToken at hnone
            rw [hfind] at hnone
            by_cases hused : t.usedAt.isSome = true
            · simp [hexp, hused] at hnone
            · simp [hexp, hused] at hnone
    · intro hcase
      cases hcase with
      | inl hnone =>
          unfold verifyAndUseCheckInToken
          rw [hnone]
      | inr hex =>
          obtain ⟨t, hfind, hexp⟩ := hex
          unfold verifyAndUseCheckInToken
          rw [hfind]
          simp [hexp]

/-- A used but unexpired check-in token. -/
def usedToken : CheckInTokenRec :=
  { id := 3, switchId := 1, token := "chk-tok", expiresAt := 500, usedAt := some 20 }

/-- A store holding `usedToken`. -/
def dbUsedToken : DB := { emptyDB with checkInTokens := [usedToken], nextId := 4 }

/-- Witness for C10: the used, unexpired token still resolves to its switch
id, and the expired case returns `none`. -/
theorem C10_checkInToken_reusable_witness :
    (verifyAndUseCheckInToken dbUsedToken "chk-tok" 100).1 = some 1
    ∧ ((verifyAndUseCheckInToken dbUsedToken "chk-tok" 600).1 = none ↔
        dbUsedToken.checkInTokens.find? (fun x => x.token = "chk-tok") = none ∨
        ∃ t, dbUsedToken.checkInTokens.find? (fun x => x.token = "chk-tok") = some t ∧
          t.expiresAt < 600) :=
  ⟨(C10_checkInToken_reusable dbUsedToken "chk-tok" 100).1 usedToken (by decide) (by decide),
   (C10_checkInToken_reusable dbUsedToken "chk-tok" 600).2⟩

/-! ## Success-path lemmas for the two vote engines

Each lemma assumes the validation chain of `submitVerificationVote` passes —
token found, link unexpired, token unused, request open, no prior vote by the
same verifier, switch present — and gives the committed transaction in normal
form.  No assumption is made about the prior contents of `db.votes` beyond
the absence of this verifier's vote, nor about the token's stored `otp`. -/

/-- Updating `votes`/`nextId` leaves the request table untouched. -/
theorem findRequest_withVotes (db : DB) (vs : List VoteRec) (nid : Nat) (i : Nat) :
    findRequest { db with votes := vs, nextId := nid } i = findRequest db i := rfl

/-- Updating `votes`/`nextId` leaves the switch table untouched. -/
theorem findSwitch_withVotes (db : DB) (vs : List VoteRec) (nid : Nat) (i : Nat) :
    findSwitch { db with votes := vs, nextId := nid } i = findSwitch db i := rfl

/-- Projection facts used when normalizing the vote count. -/
theorem votes_appendAudit (db : DB) (e : AuditEntry) :
    (appendAudit db e).votes = db.votes := rfl

theorem votes_withVotes (db : DB) (vs : List VoteRec) (nid : Nat) :
    ({ db with votes := vs, nextId := nid } : DB).votes = vs := rfl

theorem votes_updateToken (db : DB) (i : Nat)
    (f : VerificationTokenRec → VerificationTokenRec) :
    (updateToken db i f).votes = db.votes := rfl

theorem submit_pause_deny_spec (db : DB) (input : SubmitVoteInput) (now : Nat)
    (tok : VerificationTokenRec) (req : VerificationRequestRec) (sw : SwitchRec)
    (htok : findVerificationToken db input.token = some tok)
    (hexp : ¬ tok.expiresAt < now)
    (hused : tok.usedAt = none)
    (hreq : findRequest db tok.verificationRequestId = some req)
    (hopen : req.completedAt = none)
    (hvote : findVote db req.id tok.verifierId = none)
    (hsw : findSwitch db req.switchId = some sw)
    (hdeny : input.vote = .DENY) :
    ∃ dbF, VerificationSystem.submitVerificationVote db input now =
        .ok ({ vote := { id := db.nextId, verificationRequestId := req.id,
                         verifierId := tok.verifierId, vote := .DENY },
               result := .denied }, dbF)
      ∧ dbF.votes = db.votes ++
          [{ id := db.nextId, verificationRequestId := req.id,
             verifierId := tok.verifierId, vote := .DENY }]
      ∧ findRequest dbF req.id =
          some { req with completedAt := some now, result := some .denied }
      ∧ getSwitchStatus dbF req.switchId = some .PAUSED := by
  have hused2 : ¬ (tok.usedAt.isSome = true) := by rw [hused]; simp
  have hopen2 : ¬ (req.completedAt.isSome = true) := by rw [hopen]; simp
  have hvote2 : ¬ ((findVote db req.id tok.verifierId).isSome = true) := by
    rw [hvote]; simp
  have hreq0 : db.verificationRequests.find? (fun r => r.id = tok.verificationRequestId) = some req := hreq
  have hreqid : req.id = tok.verificationRequestId := by
    have h := List.find?_some hreq0
    have h2 : decide (req.id = tok.verificationRequestId) = true := h
    exact of_decide_eq_true h2
  have hsw0 : db.switches.find? (fun s => s.id = req.switchId) = some sw := hsw
  have hswid : sw.id = req.switchId := by
    have h := List.find?_some hsw0
    have h2 : decide (sw.id = req.switchId) = true := h
    exact of_decide_eq_true h2
  have hreqB : findRequest db req.id = some req := by rw [hreqid]; exact hreq
  have hE : VerificationSystem.submitVerificationVote db input now =
      .ok ({ vote := { id := db.nextId, verificationRequestId := req.id,
                         verifierId := tok.verifierId, vote := .DENY },
             result := .denied },
        updateSwitch
          (updateRequest
            (appendAudit
              { updateToken db tok.id (fun t => { t with usedAt := some now }) with
                votes := db.votes ++
                  [{ id := db.nextId, verificationRequestId := req.id,
                     verifierId := tok.verifierId, vote := .DENY }],
                nextId := db.nextId + 1 }
              { entityType := "verification_vote", entityId := some db.nextId,
                action := "verification_vote_submitted" })
            req.id (fun r => { r with completedAt := some now, result := some .denied }))
          req.switchId
          (fun s => { s with status := .PAUSED, gracePeriodEndsAt := none,
                             scheduledExecutionAt := none })) := by
    unfold VerificationSystem.submitVerificationVote
    simp only [htok, hreq, hsw, hdeny]
    rw [if_neg hexp, if_neg hused2, if_neg hopen2, if_neg hvote2]
    rfl
  refine ⟨_, hE, rfl, ?_, ?_⟩
  · rw [findRequest_updateSwitch,
        findRequest_updateRequest _ req.id
          (fun r => { r with completedAt := some now, result := some .denied })
          (fun _ => rfl) req.id,
        findRequest_appendAudit, findRequest_withVotes, findRequest_updateToken,
        hreqB, Option.map_some', if_pos rfl]
  · rw [getSwitchStatus_eq,
        findSwitch_updateSwitch _ req.switchId
          (fun s => { s with status := .PAUSED, gracePeriodEndsAt := none,
                             scheduledExecutionAt := none }) (fun _ => rfl) req.switchId,
        findSwitch_updateRequest, findSwitch_appendAudit, findSwitch_withVotes,
        findSwitch_updateToken, hsw, Option.map_some', if_pos hswid]
    rfl

theorem submit_legacy_deny_spec (db : DB) (input : SubmitVoteInput) (now : Nat)
    (tok : VerificationTokenRec) (req : VerificationRequestRec) (sw : SwitchRec)
    (htok : findVerificationToken db input.token = some tok)
    (hexp : ¬ tok.expiresAt < now)
    (hused : tok.usedAt = none)
    (hreq : findRequest db tok.verificationRequestId = some req)
    (hopen : req.completedAt = none)
    (hvote : findVote db req.id tok.verifierId = none)
    (hsw : findSwitch db req.switchId = some sw)
    (hdeny : input.vote = .DENY) :
    ∃ dbF, VerificationSystemLegacy.submitVerificationVote db input now =
        .ok ({ vote := { id := db.nextId, verificationRequestId := req.id,
                         verifierId := tok.verifierId, vote := .DENY },
               result := .denied }, dbF)
      ∧ dbF.votes = db.votes ++
          [{ id := db.nextId, verificationRequestId := req.id,
             verifierId := tok.verifierId, vote := .DENY }]
      ∧ findRequest dbF req.id =
          some { req with completedAt := some now, result := some .denied }
      ∧ getSwitchStatus dbF req.switchId = some .ACTIVE := by
  have hused2 : ¬ (tok.usedAt.isSome = true) := by rw [hused]; simp
  have hopen2 : ¬ (req.completedAt.isSome = true) := by rw [hopen]; simp
  have hvote2 : ¬ ((findVote db req.id tok.verifierId).isSome = true) := by
    rw [hvote]; simp
  have hreq0 : db.verificationRequests.find? (fun r => r.id = tok.verificationRequestId) = some req := hreq
  have hreqid : req.id = tok.verificationRequestId := by
    have h := List.find?_some hreq0
    have h2 : decide (req.id = tok.verificationRequestId) = true := h
    exact of_decide_eq_true h2
  have hsw0 : db.switches.find? (fun s => s.id = req.switchId) = some sw := hsw
  have hswid : sw.id = req.switchId := by
    have h := List.find?_some hsw0
    have h2 : decide (sw.id = req.switchId) = true := h
    exact of_decide_eq_true h2
  have hreqB : findRequest db req.id = some req := by rw [hreqid]; exact hreq
  have hE : VerificationSystemLegacy.submitVerificationVote db input now =
      .ok ({ vote := { id := db.nextId, verificationRequestId := req.id,
                         verifierId := tok.verifierId, vote := .DENY },
             result := .denied },
        updateSwitch
          (updateRequest
            (appendAudit
              { updateToken db tok.id (fun t => { t with usedAt := some now }) with
                votes := db.votes ++
                  [{ id := db.nextId, verificationRequestId := req.id,
                     verifierId := tok.verifierId, vote := .DENY }],
                nextId := db.nextId + 1 }
              { entityType := "verification_vote", entityId := some db.nextId,
                action := "verification_vote_submitted" })
            req.id (fun r => { r with completedAt := some now, result := some .denied }))
          req.switchId
          (fun s => { s with status := .ACTIVE, lastCheckInAt := some now,
                             nextCheckInDueAt := some (now + s.checkInIntervalDays * msPerDay),
                             gracePeriodEndsAt := none,
                             scheduledExecutionAt := none })) := by
    unfold VerificationSystemLegacy.submitVerificationVote
    simp only [htok, hreq, hsw, hdeny]
    rw [if_neg hexp, if_neg hused2, if_neg hopen2, if_neg hvote2]
    rfl
  refine ⟨_, hE, rfl, ?_, ?_⟩
  · rw [findRequest_updateSwitch,
        findRequest_updateRequest _ req.id
          (fun r => { r with completedAt := some now, result := some .denied })
          (fun _ => rfl) req.id,
        findRequest_appendAudit, findRequest_withVotes, findRequest_updateToken,
        hreqB, Option.map_some', if_pos rfl]
  · rw [getSwitchStatus_eq,
        findSwitch_updateSwitch _ req.switchId
          (fun s => { s with status := .ACTIVE, lastCheckInAt := some now,
                             nextCheckInDueAt := some (now + s.checkInIntervalDays * msPerDay),
                             gracePeriodEndsAt := none,
                             scheduledExecutionAt := none }) (fun _ => rfl) req.switchId,
        findSwitch_updateRequest, findSwitch_appendAudit, findSwitch_withVotes,
        findSwitch_updateToken, hsw, Option.map_some', if_pos hswid]
    rfl

theorem submit_confirm_quorum_spec (db : DB) (input : SubmitVoteInput) (now : Nat)
    (tok : VerificationTokenRec) (req : VerificationRequestRec) (sw : SwitchRec)
    (htok : findVerificationToken db input.token = some tok)
    (hexp : ¬ tok.expiresAt < now)
    (hused : tok.usedAt = none)
    (hreq : findRequest db tok.verificationRequestId = some req)
    (hopen : req.completedAt = none)
    (hvote : findVote db req.id tok.verifierId = none)
    (hsw : findSwitch db req.switchId = some sw)
    (hconf : input.vote = .CONFIRM)
    (hq : req.requiredConfirmations ≤ countConfirmVotes db req.id + 1) :
    ∃ dbF, VerificationSystem.submitVerificationVote db input now =
        .ok ({ vote := { id := db.nextId, verificationRequestId := req.id,
                         verifierId := tok.verifierId, vote := .CONFIRM },
               result := .confirmed }, dbF)
      ∧ dbF.votes = db.votes ++
          [{ id := db.nextId, verificationRequestId := req.id,
             verifierId := tok.verifierId, vote := .CONFIRM }]
      ∧ findRequest dbF req.id =
          some { req with completedAt := some now, result := some .confirmed }
      ∧ findSwitch dbF req.switchId =
          some { sw with status := .VERIFIED,
                         scheduledExecutionAt := some (now + sw.finalDelayHours * msPerHour) } := by
  have hused2 : ¬ (tok.usedAt.isSome = true) := by rw [hused]; simp
  have hopen2 : ¬ (req.completedAt.isSome = true) := by rw [hopen]; simp
  have hvote2 : ¬ ((findVote db req.id tok.verifierId).isSome = true) := by
    rw [hvote]; simp
  have hreq0 : db.verificationRequests.find? (fun r => r.id = tok.verificationRequestId) = some req := hreq
  have hreqid : req.id = tok.verificationRequestId := by
    have h := List.find?_some hreq0
    have h2 : decide (req.id = tok.verificationRequestId) = true := h
    exact of_decide_eq_true h2
  have hsw0 : db.switches.find? (fun s => s.id = req.switchId) = some sw := hsw
  have hswid : sw.id = req.switchId := by
    have h := List.find?_some hsw0
    have h2 : decide (sw.id = req.switchId) = true := h
    exact of_decide_eq_true h2
  have hreqB : findRequest db req.id = some req := by rw [hreqid]; exact hreq
  have hq2 : req.requiredConfirmations ≤
      (db.votes.filter (fun v => v.verificationRequestId = req.id ∧ v.vote = .CONFIRM)).length + 1 := by
    simpa [countConfirmVotes] using hq
  have hE : VerificationSystem.submitVerificationVote db input now =
      .ok ({ vote := { id := db.nextId, verificationRequestId := req.id,
                       verifierId := tok.verifierId, vote := .CONFIRM },
             result := .confirmed },
        updateSwitch
          (updateRequest
            (appendAudit
              { updateToken db tok.id (fun t => { t with usedAt := some now }) with
                votes := db.votes ++
                  [{ id := db.nextId, verificationRequestId := req.id,
                     verifierId := tok.verifierId, vote := .CONFIRM }],
                nextId := db.nextId + 1 }
              { entityType := "verification_vote", entityId := some db.nextId,
                action := "verification_vote_submitted" })
            req.id (fun r => { r with completedAt := some now, result := some .confirmed }))
          req.switchId
          (fun s => { s with status := .VERIFIED,
                             scheduledExecutionAt := some (now + sw.finalDelayHours * msPerHour) })) := by
    unfold VerificationSystem.submitVerificationVote
    simp only [htok, hreq, hsw, hconf]
    rw [if_neg hexp, if_neg hused2, if_neg hopen2, if_neg hvote2]
    split_ifs with hcond
    · rfl
    · exfalso
      apply hcond
      simp only [countConfirmVotes, votes_appendAudit, votes_withVotes,
                 votes_updateToken, List.filter_append, List.length_append]
      have hq3 := hq
      simp only [countConfirmVotes] at hq3
      simp at hq3 ⊢
      omega
  refine ⟨_, hE, rfl, ?_, ?_⟩
  · rw [findRequest_updateSwitch,
        findRequest_updateRequest _ req.id
          (fun r => { r with completedAt := some now, result := some .confirmed })
          (fun _ => rfl) req.id,
        findRequest_appendAudit, findRequest_withVotes, findRequest_updateToken,
        hreqB, Option.map_some', if_pos rfl]
  · rw [findSwitch_updateSwitch _ req.switchId
          (fun s => { s with status := .VERIFIED,
                             scheduledExecutionAt := some (now + sw.finalDelayHours * msPerHour) })
          (fun _ => rfl) req.switchId,
        findSwitch_updateRequest, findSwitch_appendAudit, findSwitch_withVotes,
        findSwitch_updateToken, hsw, Option.map_some', if_pos hswid]


theorem submit_confirm_pending_spec (db : DB) (input : SubmitVoteInput) (now : Nat)
    (tok : VerificationTokenRec) (req : VerificationRequestRec) (sw : SwitchRec)
    (htok : findVerificationToken db input.token = some tok)
    (hexp : ¬ tok.expiresAt < now)
    (hused : tok.usedAt = none)
    (hreq : findRequest db tok.verificationRequestId = some req)
    (hopen : req.completedAt = none)
    (hvote : findVote db req.id tok.verifierId = none)
    (hsw : findSwitch db req.switchId = some sw)
    (hconf : input.vote = .CONFIRM)
    (hlt : countConfirmVotes db req.id + 1 < req.requiredConfirmations) :
    ∃ dbF, VerificationSystem.submitVerificationVote db input now =
        .ok ({ vote := { id := db.nextId, verificationRequestId := req.id,
                         verifierId := tok.verifierId, vote := .CONFIRM },
               result := .pending }, dbF)
      ∧ dbF.votes = db.votes ++
          [{ id := db.nextId, verificationRequestId := req.id,
             verifierId := tok.verifierId, vote := .CONFIRM }]
      ∧ findRequest dbF req.id = some req
      ∧ findSwitch dbF req.switchId = some sw := by
  have hused2 : ¬ (tok.usedAt.isSome = true) := by rw [hused]; simp
  have hopen2 : ¬ (req.completedAt.isSome = true) := by rw [hopen]; simp
  have hvote2 : ¬ ((findVote db req.id tok.verifierId).isSome = true) := by
    rw [hvote]; simp
  have hreq0 : db.verificationRequests.find? (fun r => r.id = tok.verificationRequestId) = some req := hreq
  have hreqid : req.id = tok.verificationRequestId := by
    have h := List.find?_some hreq0
    have h2 : decide (req.id = tok.verificationRequestId) = true := h
    exact of_decide_eq_true h2
  have hsw0 : db.switches.find? (fun s => s.id = req.switchId) = some sw := hsw
  have hswid : sw.id = req.switchId := by
    have h := List.find?_some hsw0
    have h2 : decide (sw.id = req.switchId) = true := h
    exact of_decide_eq_true h2
  have hreqB : findRequest db req.id = some req := by rw [hreqid]; exact hreq
  have hlt2 : (db.votes.filter (fun v => v.verificationRequestId = req.id ∧ v.vote = .CONFIRM)).length + 1 <
      req.requiredConfirmations := by
    simpa [countConfirmVotes] using hlt
  have hE : VerificationSystem.submitVerificationVote db input now =
      .ok ({ vote := { id := db.nextId, verificationRequestId := req.id,
                       verifierId := tok.verifierId, vote := .CONFIRM },
             result := .pending },
        appendAudit
          { updateToken db tok.id (fun t => { t with usedAt := some now }) with
            votes := db.votes ++
              [{ id := db.nextId, verificationRequestId := req.id,
                 verifierId := tok.verifierId, vote := .CONFIRM }],
            nextId := db.nextId + 1 }
          { entityType := "verification_vote", entityId := some db.nextId,
            action := "verification_vote_submitted" }) := by
    unfold VerificationSystem.submitVerificationVote
    simp only [htok, hreq, hsw, hconf]
    rw [if_neg hexp, if_neg hused2, if_neg hopen2, if_neg hvote2]
    split_ifs with hcond
    · exfalso
      simp only [countConfirmVotes, votes_appendAudit, votes_withVotes,
                 votes_updateToken, List.filter_append, List.length_append] at hcond
      have hlt3 := hlt
      simp only [countConfirmVotes] at hlt3
      simp at hcond hlt3
      omega
    · rfl
  refine ⟨_, hE, rfl, ?_, ?_⟩
  · rw [findRequest_appendAudit, findRequest_withVotes, findRequest_updateToken, hreqB]
  · rw [findSwitch_appendAudit, findSwitch_withVotes, findSwitch_updateToken, hsw]


/-! ## Claim theorems: verification voting -/

/-- An unused, unexpired verification token for `reqOpen`, held by verifier 4.
Its stored hashed OTP is deliberately junk: the legacy vote path never reads it. -/
def tokOpen : VerificationTokenRec :=
  { id := 3, verificationRequestId := 2, verifierId := 4, token := "tok-v",
    otp := some "not-a-real-hash", otpExpiresAt := some 2000, expiresAt := 1000,
    usedAt := none }

/-- A prior CONFIRM vote on `reqOpen` by a different verifier (id 6). -/
def votePrior : VoteRec :=
  { id := 5, verificationRequestId := 2, verifierId := 6, vote := .CONFIRM }

/-- A store mid-verification: pending switch, open request with one prior
CONFIRM vote, and an unused token for a second verifier. -/
def dbVote : DB :=
  { emptyDB with switches := [swPending], verificationRequests := [reqOpen],
                 verificationTokens := [tokOpen], votes := [votePrior],
                 nextId := 7 }

/-- C1 counterexample: in the legacy verification engine present in the
source — one of the two variants the claim's own code citations cover — a
DENY vote on an open request completes it as denied but resets the switch to
ACTIVE, not PAUSED. -/
theorem C1_deny_pauses_counterexample :
    (VerificationSystemLegacy.submitVerificationVote dbVote ⟨"tok-v", .DENY⟩ 10).map
      (fun p => (p.1.result, getSwitchStatus p.2 1)) =
      .ok (.denied, some .ACTIVE)
    ∧ SwitchStatus.ACTIVE ≠ SwitchStatus.PAUSED := by
  constructor
  · rfl
  · decide

/-- C1 (amended): a DENY vote on an open request always completes the request
as denied regardless of prior CONFIRM votes; the current engine (the
`verificationSystem` module with OTP support) then sets the switch to PAUSED,
while the legacy engine variant instead resets it to ACTIVE. -/
theorem C1_deny_pauses (db : DB) (input : SubmitVoteInput) (now : Nat)
    (tok : VerificationTokenRec) (req : VerificationRequestRec) (sw : SwitchRec)
    (htok : findVerificationToken db input.token = some tok)
    (hexp : ¬ tok.expiresAt < now)
    (hused : tok.usedAt = none)
    (hreq : findRequest db tok.verificationRequestId = some req)
    (hopen : req.completedAt = none)
    (hvote : findVote db req.id tok.verifierId = none)
    (hsw : findSwitch db req.switchId = some sw)
    (hdeny : input.vote = .DENY) :
    (∃ dbF, VerificationSystem.submitVerificationVote db input now =
        .ok ({ vote := { id := db.nextId, verificationRequestId := req.id,
                         verifierId := tok.verifierId, vote := .DENY },
               result := .denied }, dbF)
      ∧ findRequest dbF req.id =
          some { req with completedAt := some now, result := some .denied }
      ∧ getSwitchStatus dbF req.switchId = some .PAUSED)
    ∧ (∃ dbF, VerificationSystemLegacy.submitVerificationVote db input now =
        .ok ({ vote := { id := db.nextId, verificationRequestId := req.id,
                         verifierId := tok.verifierId, vote := .DENY },
               result := .denied }, dbF)
      ∧ findRequest dbF req.id =
          some { req with completedAt := some now, result := some .denied }
      ∧ getSwitchStatus dbF req.switchId = some .ACTIVE) := by
  constructor
  · obtain ⟨dbF, hE, _, hfr, hst⟩ :=
      submit_pause_deny_spec db input now tok req sw htok hexp hused hreq hopen hvote hsw hdeny
    exact ⟨dbF, hE, hfr, hst⟩
  · obtain ⟨dbF, hE, _, hfr, hst⟩ :=
      submit_legacy_deny_spec db input now tok req sw htok hexp hused hreq hopen hvote hsw hdeny
    exact ⟨dbF, hE, hfr, hst⟩

/-- Witness for C1 (amended) on `dbVote`: despite the prior CONFIRM vote, the
current engine pauses and the legacy engine reactivates. -/
theorem C1_deny_pauses_witness :
    (∃ dbF, VerificationSystem.submitVerificationVote dbVote ⟨"tok-v", .DENY⟩ 10 =
        .ok ({ vote := { id := 7, verificationRequestId := 2,
                         verifierId := 4, vote := .DENY },
               result := .denied }, dbF)
      ∧ findRequest dbF 2 =
          some { reqOpen with completedAt := some 10, result := some .denied }
      ∧ getSwitchStatus dbF 1 = some .PAUSED)
    ∧ (∃ dbF, VerificationSystemLegacy.submitVerificationVote dbVote ⟨"tok-v", .DENY⟩ 10 =
        .ok ({ vote := { id := 7, verificationRequestId := 2,
                         verifierId := 4, vote := .DENY },
               result := .denied }, dbF)
      ∧ findRequest dbF 2 =
          some { reqOpen with completedAt := some 10, result := some .denied }
      ∧ getSwitchStatus dbF 1 = some .ACTIVE) :=
  C1_deny_pauses dbVote ⟨"tok-v", .DENY⟩ 10 tokOpen reqOpen swPending
    (by decide) (by decide) (by decide) (by decide) (by decide) (by decide)
    (by decide) (by decide)

/-- C5: an accepted CONFIRM vote recounts CONFIRM votes (the stored votes
plus the one just inserted); if the count reaches the request's snapshotted
`requiredConfirmations` the request completes as confirmed and the switch
becomes VERIFIED with `scheduledExecutionAt = now + finalDelayHours` (in ms),
otherwise the request stays open and the result is `pending`. -/
theorem C5_confirm_quorum (db : DB) (input : SubmitVoteInput) (now : Nat)
    (tok : VerificationTokenRec) (req : VerificationRequestRec) (sw : SwitchRec)
    (htok : findVerificationToken db input.token = some tok)
    (hexp : ¬ tok.expiresAt < now)
    (hused : tok.usedAt = none)
    (hreq : findRequest db tok.verificationRequestId = some req)
    (hopen : req.completedAt = none)
    (hvote : findVote db req.id tok.verifierId = none)
    (hsw : findSwitch db req.switchId = some sw)
    (hconf : input.vote = .CONFIRM) :
    (req.requiredConfirmations ≤ countConfirmVotes db req.id + 1 →
      ∃ dbF, VerificationSystem.submitVerificationVote db input now =
          .ok ({ vote := { id := db.nextId, verificationRequestId := req.id,
                           verifierId := tok.verifierId, vote := .CONFIRM },
                 result := .confirmed }, dbF)
        ∧ findRequest dbF req.id =
            some { req with completedAt := some now, result := some .confirmed }
        ∧ findSwitch dbF req.switchId =
            some { sw with status := .VERIFIED,
                           scheduledExecutionAt :=
                             some (now + sw.finalDelayHours * msPerHour) })
    ∧ (countConfirmVotes db req.id + 1 < req.requiredConfirmations →
      ∃ dbF, VerificationSystem.submitVerificationVote db input now =
          .ok ({ vote := { id := db.nextId, verificationRequestId := req.id,
                           verifierId := tok.verifierId, vote := .CONFIRM },
                 result := .pending }, dbF)
        ∧ findRequest dbF req.id = some req
        ∧ req.completedAt = none
        ∧ findSwitch dbF req.switchId = some sw) := by
  constructor
  · intro hq
    obtain ⟨dbF, hE, _, hfr, hsw2⟩ :=
      submit_confirm_quorum_spec db input now tok req sw htok hexp hused hreq hopen hvote hsw hconf hq
    exact ⟨dbF, hE, hfr, hsw2⟩
  · intro hlt
    obtain ⟨dbF, hE, _, hfr, hsw2⟩ :=
      submit_confirm_pending_spec db input now tok req sw htok hexp hused hreq hopen hvote hsw hconf hlt
    exact ⟨dbF, hE, hfr, hopen, hsw2⟩

/-- Witness for C5 on `dbVote`: verifier 4's CONFIRM is the second of the two
required votes, so the request completes confirmed and the switch becomes
VERIFIED with the 24-hour final delay from `now = 10`. -/
theorem C5_confirm_quorum_witness :
    ∃ dbF, VerificationSystem.submitVerificationVote dbVote ⟨"tok-v", .CONFIRM⟩ 10 =
        .ok ({ vote := { id := 7, verificationRequestId := 2,
                         verifierId := 4, vote := .CONFIRM },
               result := .confirmed }, dbF)
      ∧ findRequest dbF 2 =
          some { reqOpen with completedAt := some 10, result := some .confirmed }
      ∧ findSwitch dbF 1 =
          some { swPending with status := .VERIFIED,
                                scheduledExecutionAt :=
                                  some (10 + swPending.finalDelayHours * msPerHour) } :=
  (C5_confirm_quorum dbVote ⟨"tok-v", .CONFIRM⟩ 10 tokOpen reqOpen swPending
    (by decide) (by decide) (by decide) (by decide) (by decide) (by decide)
    (by decide) (by decide)).1 (by decide)

/-- C9: a POST body without an `otp` field is dispatched to the non-OTP
`submitVerificationVote` path, whose validation chain checks only token
existence, link expiry, non-reuse, request openness, and absence of a prior
vote by the same verifier; the stored hashed OTP is never compared (the
response does not depend on the OTP hash function at all), yet the vote
record is inserted and a DENY completes the request as denied while a
quorum-reaching CONFIRM completes it as confirmed. -/
theorem C9_route_skips_otp (hashOtpFn : String → String) (db : DB)
    (body : PostBody) (now : Nat)
    (tok : VerificationTokenRec) (req : VerificationRequestRec) (sw : SwitchRec)
    (hbody : body.otp = none)
    (htok : findVerificationToken db body.token = some tok)
    (hexp : ¬ tok.expiresAt < now)
    (hused : tok.usedAt = none)
    (hreq : findRequest db tok.verificationRequestId = some req)
    (hopen : req.completedAt = none)
    (hvote : findVote db req.id tok.verifierId = none)
    (hsw : findSwitch db req.switchId = some sw) :
    (POSTverify hashOtpFn db none body now =
      (match VerificationSystem.submitVerificationVote db ⟨body.token, body.vote⟩ now with
       | .ok (outcome, db1) => (.voteOk outcome.vote outcome.result, db1)
       | .error e => (.badRequest e, db)))
    ∧ (∀ f g : String → String,
        POSTverify f db none body now = POSTverify g db none body now)
    ∧ (body.vote = .DENY →
        ∃ dbF, POSTverify hashOtpFn db none body now =
          (.voteOk { id := db.nextId, verificationRequestId := req.id,
                     verifierId := tok.verifierId, vote := .DENY } .denied, dbF)
        ∧ dbF.votes = db.votes ++
            [{ id := db.nextId, verificationRequestId := req.id,
               verifierId := tok.verifierId, vote := .DENY }]
        ∧ findRequest dbF req.id =
            some { req with completedAt := some now, result := some .denied })
    ∧ (body.vote = .CONFIRM →
        req.requiredConfirmations ≤ countConfirmVotes db req.id + 1 →
        ∃ dbF, POSTverify hashOtpFn db none body now =
          (.voteOk { id := db.nextId, verificationRequestId := req.id,
                     verifierId := tok.verifierId, vote := .CONFIRM } .confirmed, dbF)
        ∧ dbF.votes = db.votes ++
            [{ id := db.nextId, verificationRequestId := req.id,
               verifierId := tok.verifierId, vote := .CONFIRM }]
        ∧ findRequest dbF req.id =
            some { req with completedAt := some now, result := some .confirmed }) := by
  have hdispatch : ∀ f : String → String, POSTverify f db none body now =
      (match VerificationSystem.submitVerificationVote db ⟨body.token, body.vote⟩ now with
       | .ok (outcome, db1) => (.voteOk outcome.vote outcome.result, db1)
       | .error e => (.badRequest e, db)) := by
    intro f
    unfold POSTverify
    simp [hbody, otpTruthy]
  refine ⟨hdispatch hashOtpFn, ?_, ?_, ?_⟩
  · intro f g
    rw [hdispatch f, hdispatch g]
  · intro hdeny
    obtain ⟨dbF, hE, hvotes, hfr, _⟩ :=
      submit_pause_deny_spec db ⟨body.token, body.vote⟩ now tok req sw htok hexp
        hused hreq hopen hvote hsw hdeny
    refine ⟨dbF, ?_, hvotes, hfr⟩
    rw [hdispatch hashOtpFn, hE]
  · intro hconf hq
    obtain ⟨dbF, hE, hvotes, hfr, _⟩ :=
      submit_confirm_quorum_spec db ⟨body.token, body.vote⟩ now tok req sw htok hexp
        hused hreq hopen hvote hsw hconf hq
    refine ⟨dbF, ?_, hvotes, hfr⟩
    rw [hdispatch hashOtpFn, hE]

/-- Witness for C9 on `dbVote`: an otp-less POST body records verifier 4's
DENY vote and completes the request as denied, even though the token stores
an OTP hash that matches nothing. -/
theorem C9_route_skips_otp_witness :
    ∃ dbF, POSTverify (fun s => s) dbVote none
        { token := "tok-v", otp := none, vote := .DENY } 10 =
      (.voteOk { id := 7, verificationRequestId := 2,
                 verifierId := 4, vote := .DENY } .denied, dbF)
      ∧ dbF.votes = dbVote.votes ++
          [{ id := 7, verificationRequestId := 2, verifierId := 4, vote := .DENY }]
      ∧ findRequest dbF 2 =
          some { reqOpen with completedAt := some 10, result := some .denied } :=
  (C9_route_skips_otp (fun s => s) dbVote
    { token := "tok-v", otp := none, vote := .DENY } 10 tokOpen reqOpen swPending
    (by decide) (by decide) (by decide) (by decide) (by decide) (by decide)
    (by decide) (by decide)).2.2.1 (by decide)

/-! ## Claim theorems: scheduler verification expiry -/

/-- The per-request step of the expiry pass does not disturb another open
request `r` (distinct id) nor remove its switch. -/
theorem expireOne_pre_preserved (now : Nat) (r q : VerificationRequestRec)
    (acc : (Nat × List String) × DB) (hne : ¬ q.id = r.id)
    (h1 : findRequest acc.2 r.id = some r)
    (h2 : (findSwitch acc.2 r.switchId).isSome = true) :
    findRequest (expireOneRequest now acc q).2 r.id = some r
    ∧ (findSwitch (expireOneRequest now acc q).2 r.switchId).isSome = true := by
  cases hfq : findSwitch acc.2 q.switchId with
  | none =>
      unfold expireOneRequest
      simp only [hfq]
      exact ⟨h1, h2⟩
  | some s =>
      unfold expireOneRequest
      simp only [hfq]
      constructor
      · rw [findRequest_appendAudit, findRequest_updateSwitch,
            findRequest_updateRequest _ q.id
              (fun r2 => { r2 with completedAt := some now, result := some .expired })
              (fun _ => rfl) r.id,
            h1, Option.map_some']
        rw [if_neg (fun h => hne (h.symm))]
      · rw [findSwitch_appendAudit,
            findSwitch_updateSwitch _ q.switchId
              (fun s2 => { s2 with status := .PAUSED }) (fun _ => rfl) r.switchId,
            findSwitch_updateRequest]
        simpa using h2

/-- The per-request step at `r` itself: the request is completed as expired,
its switch paused, and the audit entry appended — one atomic unit. -/
theorem expireOne_post (now : Nat) (r : VerificationRequestRec)
    (acc : (Nat × List String) × DB)
    (h1 : findRequest acc.2 r.id = some r)
    (h2 : (findSwitch acc.2 r.switchId).isSome = true) :
    findRequest (expireOneRequest now acc r).2 r.id =
      some { r with completedAt := some now, result := some .expired }
    ∧ getSwitchStatus (expireOneRequest now acc r).2 r.switchId = some .PAUSED
    ∧ { entityType := "verification_request", entityId := some r.id,
        action := "verification_expired" } ∈ (expireOneRequest now acc r).2.auditLog := by
  obtain ⟨s, hs⟩ := Option.isSome_iff_exists.mp h2
  have hs0 : acc.2.switches.find? (fun x => x.id = r.switchId) = some s := hs
  have hsid : s.id = r.switchId := by
    have h := List.find?_some hs0
    have hd : decide (s.id = r.switchId) = true := h
    exact of_decide_eq_true hd
  unfold expireOneRequest
  simp only [hs]
  refine ⟨?_, ?_, ?_⟩
  · rw [findRequest_appendAudit, findRequest_updateSwitch,
        findRequest_updateRequest _ r.id
          (fun r2 => { r2 with completedAt := some now, result := some .expired })
          (fun _ => rfl) r.id,
        h1, Option.map_some', if_pos rfl]
  · rw [getSwitchStatus_eq, findSwitch_appendAudit,
        findSwitch_updateSwitch _ r.switchId
          (fun s2 => { s2 with status := .PAUSED }) (fun _ => rfl) r.switchId,
        findSwitch_updateRequest, hs, Option.map_some', if_pos hsid]
    rfl
  · simp [appendAudit]

/-- Later steps of the expiry pass preserve the completed state of `r`, the
PAUSED status of its switch, and the audit entry. -/
theorem expireOne_post_preserved (now : Nat) (r q : VerificationRequestRec)
    (acc : (Nat × List String) × DB) (hne : ¬ q.id = r.id)
    (h1 : findRequest acc.2 r.id =
      some { r with completedAt := some now, result := some .expired })
    (h2 : getSwitchStatus acc.2 r.switchId = some .PAUSED)
    (h3 : { entityType := "verification_request", entityId := some r.id,
            action := "verification_expired" } ∈ acc.2.auditLog) :
    findRequest (expireOneRequest now acc q).2 r.id =
      some { r with completedAt := some now, result := some .expired }
    ∧ getSwitchStatus (expireOneRequest now acc q).2 r.switchId = some .PAUSED
    ∧ { entityType := "verification_request", entityId := some r.id,
        action := "verification_expired" } ∈ (expireOneRequest now acc q).2.auditLog := by
  cases hfq : findSwitch acc.2 q.switchId with
  | none =>
      unfold expireOneRequest
      simp only [hfq]
      exact ⟨h1, h2, h3⟩
  | some s =>
      rw [getSwitchStatus_eq] at h2
      obtain ⟨s2, hs2, hstat⟩ := Option.map_eq_some'.mp h2
      unfold expireOneRequest
      simp only [hfq]
      refine ⟨?_, ?_, ?_⟩
      · rw [findRequest_appendAudit, findRequest_updateSwitch,
            findRequest_updateRequest _ q.id
              (fun r2 => { r2 with completedAt := some now, result := some .expired })
              (fun _ => rfl) r.id,
            h1, Option.map_some']
        rw [if_neg (fun h => hne (h.symm))]
      · rw [getSwitchStatus_eq, findSwitch_appendAudit,
            findSwitch_updateSwitch _ q.switchId
              (fun x => { x with status := .PAUSED }) (fun _ => rfl) r.switchId,
            findSwitch_updateRequest, hs2, Option.map_some']
        by_cases hid : s2.id = q.switchId
        · rw [if_pos hid]
          rfl
        · rw [if_neg hid, Option.map_some', hstat]
      · simp only [appendAudit, List.mem_append]
        exact Or.inl h3

/-- Steps on requests with ids different from `r.id` preserve the pre-state
of `r` across a whole fold. -/
theorem foldl_expire_pre (now : Nat) (r : VerificationRequestRec)
    (l : List VerificationRequestRec) (hl : ∀ q ∈ l, ¬ q.id = r.id)
    (acc : (Nat × List String) × DB)
    (h1 : findRequest acc.2 r.id = some r)
    (h2 : (findSwitch acc.2 r.switchId).isSome = true) :
    findRequest (l.foldl (expireOneRequest now) acc).2 r.id = some r
    ∧ (findSwitch (l.foldl (expireOneRequest now) acc).2 r.switchId).isSome = true := by
  induction l generalizing acc with
  | nil => exact ⟨h1, h2⟩
  | cons q rest ih =>
      have hq : ¬ q.id = r.id := hl q (List.mem_cons_self q rest)
      have hrest : ∀ x ∈ rest, ¬ x.id = r.id := fun x hx => hl x (List.mem_cons_of_mem q hx)
      obtain ⟨p1, p2⟩ := expireOne_pre_preserved now r q acc hq h1 h2
      exact ih hrest (expireOneRequest now acc q) p1 p2

/-- Steps on requests with ids different from `r.id` preserve the completed
state of `r` across a whole fold. -/
theorem foldl_expire_post (now : Nat) (r : VerificationRequestRec)
    (l : List VerificationRequestRec) (hl : ∀ q ∈ l, ¬ q.id = r.id)
    (acc : (Nat × List String) × DB)
    (h1 : findRequest acc.2 r.id =
      some { r with completedAt := some now, result := some .expired })
    (h2 : getSwitchStatus acc.2 r.switchId = some .PAUSED)
    (h3 : { entityType := "verification_request", entityId := some r.id,
            action := "verification_expired" } ∈ acc.2.auditLog) :
    findRequest (l.foldl (expireOneRequest now) acc).2 r.id =
      some { r with completedAt := some now, result := some .expired }
    ∧ getSwitchStatus (l.foldl (expireOneRequest now) acc).2 r.switchId = some .PAUSED
    ∧ { entityType := "verification_request", entityId := some r.id,
        action := "verification_expired" } ∈
          (l.foldl (expireOneRequest now) acc).2.auditLog := by
  induction l generalizing acc with
  | nil => exact ⟨h1, h2, h3⟩
  | cons q rest ih =>
      have hq : ¬ q.id = r.id := hl q (List.mem_cons_self q rest)
      have hrest : ∀ x ∈ rest, ¬ x.id = r.id := fun x hx => hl x (List.mem_cons_of_mem q hx)
      obtain ⟨p1, p2, p3⟩ := expireOne_post_preserved now r q acc hq h1 h2 h3
      exact ih hrest (expireOneRequest now acc q) p1 p2 p3

/-- C7: every verification request that is open (`completedAt = none`) and
past its `expiresAt` at sweep time is, by `processVerificationExpiry`, marked
completed with result expired while its switch's status is set to PAUSED and
the `verification_expired` audit entry is written — the three writes forming
one transaction in the embedding — regardless of the switch's current status
(no hypothesis constrains it). -/
theorem C7_verification_expiry (db : DB) (now : Nat) (r : VerificationRequestRec)
    (hfr : findRequest db r.id = some r)
    (hopen : r.completedAt = none)
    (hexp : r.expiresAt < now)
    (hnodup : (db.verificationRequests.map (fun q => q.id)).Nodup)
    (hsw : (findSwitch db r.switchId).isSome = true) :
    findRequest (processVerificationExpiry db now).2 r.id =
      some { r with completedAt := some now, result := some .expired }
    ∧ getSwitchStatus (processVerificationExpiry db now).2 r.switchId = some .PAUSED
    ∧ { entityType := "verification_request", entityId := some r.id,
        action := "verification_expired" } ∈
          (processVerificationExpiry db now).2.auditLog := by
  have hmem : r ∈ db.verificationRequests := by
    have h0 : db.verificationRequests.find? (fun q => q.id = r.id) = some r := hfr
    exact List.mem_of_find?_eq_some h0
  have hmemf : r ∈ db.verificationRequests.filter
      (fun q => q.completedAt = none ∧ q.expiresAt < now) := by
    rw [List.mem_filter]
    refine ⟨hmem, ?_⟩
    exact decide_eq_true ⟨hopen, hexp⟩
  have hnodupf : ((db.verificationRequests.filter
      (fun q => q.completedAt = none ∧ q.expiresAt < now)).map (fun q => q.id)).Nodup := by
    apply List.Nodup.sublist _ hnodup
    exact List.Sublist.map _ (List.filter_sublist _)
  obtain ⟨l1, l2, hsplit⟩ := List.append_of_mem hmemf
  have hids : (∀ q ∈ l1, ¬ q.id = r.id) ∧ (∀ q ∈ l2, ¬ q.id = r.id) := by
    rw [hsplit] at hnodupf
    rw [List.map_append, List.map_cons] at hnodupf
    have hd := List.nodup_append.mp hnodupf
    constructor
    · intro q hq hqr
      have hqm : q.id ∈ l1.map (fun x => x.id) := List.mem_map_of_mem _ hq
      have hnin := hd.2.2 hqm
      apply hnin
      rw [hqr]
      exact List.mem_cons_self _ _
    · intro q hq hqr
      have hcons := hd.2.1
      rw [List.nodup_cons] at hcons
      apply hcons.1
      rw [← hqr]
      exact List.mem_map_of_mem _ hq
  unfold processVerificationExpiry
  simp only
  rw [hsplit, List.foldl_append, List.foldl_cons]
  obtain ⟨p1, p2⟩ := foldl_expire_pre now r l1 hids.1 ((0, []), db) hfr hsw
  obtain ⟨q1, q2, q3⟩ := expireOne_post now r (l1.foldl (expireOneRequest now) ((0, []), db)) p1 p2
  exact foldl_expire_post now r l2 hids.2 _ q1 q2 q3

/-- An open request whose window has already passed at `now = 2000`,
attached to `swPending`. -/
def dbExpired : DB :=
  { emptyDB with switches := [swPending], verificationRequests := [reqOpen],
                 nextId := 8 }

/-- Witness for C7: the open request of `dbExpired` (expiresAt = 1000) is
expired at `now = 2000` and its switch paused. -/
theorem C7_verification_expiry_witness :
    findRequest (processVerificationExpiry dbExpired 2000).2 2 =
      some { reqOpen with completedAt := some 2000, result := some .expired }
    ∧ getSwitchStatus (processVerificationExpiry dbExpired 2000).2 1 = some .PAUSED
    ∧ { entityType := "verification_request", entityId := some 2,
        action := "verification_expired" } ∈
          (processVerificationExpiry dbExpired 2000).2.auditLog :=
  C7_verification_expiry dbExpired 2000 reqOpen
    (by decide) (by decide) (by decide) (by decide) (by decide)

/-! ## A concrete instance of the crypto primitives for witnesses

A deliberately simple, fully computable stand-in for node's base64 and
AES-GCM that satisfies exactly the contracts the theorems assume: the
encodings never emit `:`, decode inverts encode, and decryption with the
matching key, iv and tag inverts encryption. -/

/-- Encode bytes as runs of `a` terminated by `.` (colon-free, injective). -/
def encBytesChars : List Nat → List Char
  | [] => []
  | n :: rest => List.replicate n 'a' ++ '.' :: encBytesChars rest

/-- String form of `encBytesChars`. -/
def unaryEncode (b : List Nat) : String := String.mk (encBytesChars b)

/-- Decode `encBytesChars`: count the run, emit at the terminator. -/
def decBytesChars : List Char → Nat → List Nat
  | [], _ => []
  | ch :: cs, acc => if ch = '.' then acc :: decBytesChars cs 0 else decBytesChars cs (acc + 1)

/-- Inverse of `unaryEncode`. -/
def unaryDecode (s : String) : List Nat := decBytesChars s.data 0

/-- Encode a string via its character codes. -/
def strEncode (s : String) : String := unaryEncode (s.data.map Char.toNat)

/-- Inverse of `strEncode`. -/
def strDecode (s : String) : String := String.mk ((unaryDecode s).map Char.ofNat)

/-- The witness `NodeCrypto` instance. -/
def unaryCrypto : NodeCrypto where
  hexDecode := fun s => s.data.map Char.toNat
  scryptSync := fun key salt _ => key ++ salt
  b64encode := unaryEncode
  b64decode := unaryDecode
  cipherEnc := fun key iv pt => (strEncode pt, key ++ iv)
  cipherDec := fun key iv tag ct => if tag = key ++ iv then some (strDecode ct) else none
  hashOtp := fun s => s ++ "#"

theorem decBytes_replicate (n : Nat) (rest : List Char) (acc : Nat) :
    decBytesChars (List.replicate n 'a' ++ '.' :: rest) acc =
      (acc + n) :: decBytesChars rest 0 := by
  induction n generalizing acc with
  | zero => simp [decBytesChars]
  | succ k ih =>
      rw [List.replicate_succ, List.cons_append]
      show decBytesChars ('a' :: (List.replicate k 'a' ++ '.' :: rest)) acc = _
      rw [decBytesChars, if_neg (by decide)]
      rw [ih (acc + 1)]
      congr 1
      omega

theorem unary_roundtrip (b : List Nat) : unaryDecode (unaryEncode b) = b := by
  show decBytesChars (encBytesChars b) 0 = b
  induction b with
  | nil => rfl
  | cons n rest ih =>
      rw [encBytesChars, decBytes_replicate]
      rw [ih]
      congr 1
      omega

theorem encBytes_chars (b : List Nat) : ∀ ch ∈ encBytesChars b, ch = 'a' ∨ ch = '.' := by
  induction b with
  | nil => intro ch h; exact absurd h (List.not_mem_nil ch)
  | cons n rest ih =>
      intro ch h
      rw [encBytesChars] at h
      rcases List.mem_append.mp h with h1 | h2
      · exact Or.inl (List.eq_of_mem_replicate h1)
      · rcases List.mem_cons.mp h2 with h3 | h4
        · exact Or.inr h3
        · exact ih ch h4

theorem unary_no_colon (b : List Nat) : ':' ∉ (unaryEncode b).data := by
  intro h
  rcases encBytes_chars b ':' h with h1 | h1 <;> exact absurd h1 (by decide)

theorem strEncode_no_colon (s : String) : ':' ∉ (strEncode s).data :=
  unary_no_colon (s.data.map Char.toNat)

theorem strDecode_strEncode (s : String) : strDecode (strEncode s) = s := by
  unfold strDecode strEncode
  rw [show unaryDecode (unaryEncode (s.data.map Char.toNat)) = s.data.map Char.toNat from
        unary_roundtrip _]
  rw [List.map_map]
  have : (Char.ofNat ∘ Char.toNat) = id := by
    funext ch
    exact Char.ofNat_toNat ch
  rw [this, List.map_id]

theorem unaryCrypto_gcm (k iv : List Nat) (pt : String) :
    unaryCrypto.cipherDec k iv (unaryCrypto.cipherEnc k iv pt).2
      (unaryCrypto.cipherEnc k iv pt).1 = some pt := by
  show (if k ++ iv = k ++ iv then some (strDecode (strEncode pt)) else none) = some pt
  rw [if_pos rfl, strDecode_strEncode]

/-- A syntactically valid 64-character `ENCRYPTION_KEY`. -/
def key64 : String :=
  "0000000000000000000000000000000000000000000000000000000000000000"

/-! ## Claim theorems: encryption round trip and generic failure -/

theorem splitColonAux_no_colon (l : List Char) (acc : List Char) (h : ':' ∉ l) :
    splitColonAux l acc = [String.mk (acc.reverse ++ l)] := by
  induction l generalizing acc with
  | nil => simp [splitColonAux]
  | cons ch cs ih =>
      have hch : ¬ ch = ':' := fun hc => h (hc ▸ List.mem_cons_self ch cs)
      have hcs : ':' ∉ cs := fun hc => h (List.mem_cons_of_mem ch hc)
      simp only [splitColonAux, if_neg hch]
      rw [ih (ch :: acc) hcs]
      simp

theorem splitColonAux_append (l1 l2 : List Char) (acc : List Char) (h : ':' ∉ l1) :
    splitColonAux (l1 ++ ':' :: l2) acc =
      String.mk (acc.reverse ++ l1) :: splitColonAux l2 [] := by
  induction l1 generalizing acc with
  | nil => simp [splitColonAux]
  | cons ch cs ih =>
      have hch : ¬ ch = ':' := fun hc => h (hc ▸ List.mem_cons_self ch cs)
      have hcs : ':' ∉ cs := fun hc => h (List.mem_cons_of_mem ch hc)
      simp only [List.cons_append, splitColonAux, if_neg hch]
      exact (ih (ch :: acc) hcs).trans (by simp)

set_option maxRecDepth 4000 in
/-- JavaScript `split(':')` recovers the four fields of an
`a:b:c:d` join when no field contains a colon. -/
theorem splitColon_four (s1 s2 s3 s4 : String)
    (h1 : ':' ∉ s1.data) (h2 : ':' ∉ s2.data) (h3 : ':' ∉ s3.data)
    (h4 : ':' ∉ s4.data) :
    splitColon (s1 ++ ":" ++ s2 ++ ":" ++ s3 ++ ":" ++ s4) = [s1, s2, s3, s4] := by
  have hmk : ∀ s : String, String.mk s.data = s := fun s => by cases s; rfl
  have hap : ∀ a b : String, (a ++ b).data = a.data ++ b.data := fun a b => rfl
  have hcol : (":" : String).data = [':'] := rfl
  have hdata : (s1 ++ ":" ++ s2 ++ ":" ++ s3 ++ ":" ++ s4).data =
      s1.data ++ ':' :: (s2.data ++ ':' :: (s3.data ++ ':' :: s4.data)) := by
    simp only [hap, hcol, List.append_assoc, List.singleton_append, List.cons_append,
               List.nil_append]
  unfold splitColon
  rw [hdata,
      splitColonAux_append _ _ _ h1,
      splitColonAux_append _ _ _ h2,
      splitColonAux_append _ _ _ h3,
      splitColonAux_no_colon _ _ h4]
  simp [hmk]

set_option maxRecDepth 40000 in
/-- C8 counterexample: the round-trip equation fails as stated.  `decrypt` of
the plain string `""` fails, so the claim's composition `encrypt(decrypt(x))`
is undefined at `x = ""`; and even in the `decrypt(encrypt(x))` orientation
the empty plaintext breaks the round trip, because AES-GCM of `""` yields an
empty ciphertext field and the falsy structural check in `decrypt` rejects
it with the generic error. -/
theorem C8_roundtrip_counterexample :
    decrypt unaryCrypto key64 "" = .error "Decryption failed"
    ∧ (encrypt unaryCrypto key64 [1, 2] [3, 4] "").map
        (fun pr => decrypt unaryCrypto key64 pr.1) = .ok (.error "Decryption failed") := by
  constructor
  · rfl
  · rfl

/-- C8 (amended): with a configured 64-character key, a nonempty GCM
ciphertext field and nonempty salt/iv/tag encodings — all guaranteed by the
real node primitives for nonempty plaintexts — `decrypt` inverts `encrypt`;
and every failing `decrypt`, for every key configuration and blob, fails with
exactly the single generic `"Decryption failed"` error, leaking nothing about
which check failed. -/
theorem C8_encrypt_decrypt (c : NodeCrypto) (env : String) (salt iv : List Nat)
    (pt : String)
    (hkey : validEncryptionKey env = true)
    (hb64rt : ∀ b, c.b64decode (c.b64encode b) = b)
    (hb64col : ∀ b, ':' ∉ (c.b64encode b).data)
    (hctcol : ':' ∉ ((c.cipherEnc (c.scryptSync (c.hexDecode env) salt 32) iv pt).1).data)
    (hgcm : c.cipherDec (c.scryptSync (c.hexDecode env) salt 32) iv
              (c.cipherEnc (c.scryptSync (c.hexDecode env) salt 32) iv pt).2
              (c.cipherEnc (c.scryptSync (c.hexDecode env) salt 32) iv pt).1 = some pt)
    (hsne : ¬ c.b64encode salt = "")
    (hivne : ¬ c.b64encode iv = "")
    (htagne : ¬ c.b64encode (c.cipherEnc (c.scryptSync (c.hexDecode env) salt 32) iv pt).2 = "")
    (hctne : ¬ (c.cipherEnc (c.scryptSync (c.hexDecode env) salt 32) iv pt).1 = "") :
    (encrypt c env salt iv pt).map (fun pr => decrypt c env pr.1) = .ok (.ok pt)
    ∧ (∀ env2 blob e, decrypt c env2 blob = .error e → e = "Decryption failed") := by
  constructor
  · have hE : encrypt c env salt iv pt =
        .ok (c.b64encode salt ++ ":" ++ c.b64encode iv ++ ":"
             ++ c.b64encode (c.cipherEnc (c.scryptSync (c.hexDecode env) salt 32) iv pt).2
             ++ ":" ++ (c.cipherEnc (c.scryptSync (c.hexDecode env) salt 32) iv pt).1,
             c.b64encode iv) := by
      unfold encrypt
      rw [if_pos hkey]
    have hsp := splitColon_four (c.b64encode salt) (c.b64encode iv)
      (c.b64encode (c.cipherEnc (c.scryptSync (c.hexDecode env) salt 32) iv pt).2)
      (c.cipherEnc (c.scryptSync (c.hexDecode env) salt 32) iv pt).1
      (hb64col salt) (hb64col iv) (hb64col _) hctcol
    have hD : decrypt c env
        (c.b64encode salt ++ ":" ++ c.b64encode iv ++ ":"
         ++ c.b64encode (c.cipherEnc (c.scryptSync (c.hexDecode env) salt 32) iv pt).2
         ++ ":" ++ (c.cipherEnc (c.scryptSync (c.hexDecode env) salt 32) iv pt).1) =
        .ok pt := by
      unfold decrypt
      rw [if_pos hkey]
      simp only [hsp]
      rw [if_neg (by simp [hsne, hivne, htagne, hctne])]
      rw [hb64rt, hb64rt, hb64rt]
      simp only [hgcm]
    rw [hE]
    simp only [Except.map]
    rw [hD]
  · intro env2 blob e hde
    unfold decrypt at hde
    by_cases hk : validEncryptionKey env2 = true
    · rw [if_pos hk] at hde
      rcases hsp2 : splitColon blob with _ | ⟨a, _ | ⟨b, _ | ⟨c3, _ | ⟨d, _ | ⟨f, tl⟩⟩⟩⟩⟩ <;>
        simp only [hsp2] at hde
      · injection hde with he
        exact he.symm
      · injection hde with he
        exact he.symm
      · injection hde with he
        exact he.symm
      · injection hde with he
        exact he.symm
      · split_ifs at hde with hemp
        · injection hde with he
          exact he.symm
        · rcases hcd : c.cipherDec (c.scryptSync (c.hexDecode env2) (c.b64decode a) 32)
              (c.b64decode b) (c.b64decode c3) d with _ | pt2
          · simp only [hcd] at hde
            injection hde with he
            exact he.symm
          · simp only [hcd] at hde
            exact absurd hde (by simp)
      · injection hde with he
        exact he.symm
    · rw [if_neg hk] at hde
      injection hde with he
      exact he.symm

/-- Witness for C8 (amended): the concrete round trip of `"hi"` under the
witness cipher primitives and the all-zero 64-character key. -/
theorem C8_encrypt_decrypt_witness :
    (encrypt unaryCrypto key64 [1] [2] "hi").map
      (fun pr => decrypt unaryCrypto key64 pr.1) = .ok (.ok "hi")
    ∧ (decrypt unaryCrypto key64 "not:a:valid:blob" = .error "oops" → "oops" = "Decryption failed") :=
  ⟨(C8_encrypt_decrypt unaryCrypto key64 [1] [2] "hi" (by decide)
      (fun b => unary_roundtrip b) (fun b => unary_no_colon b)
      (strEncode_no_colon "hi")
      (unaryCrypto_gcm (unaryCrypto.scryptSync (unaryCrypto.hexDecode key64) [1] 32) [2] "hi")
      (by decide) (by decide) (by decide) (by decide)).1,
   fun h => (C8_encrypt_decrypt unaryCrypto key64 [1] [2] "hi" (by decide)
      (fun b => unary_roundtrip b) (fun b => unary_no_colon b)
      (strEncode_no_colon "hi")
      (unaryCrypto_gcm (unaryCrypto.scryptSync (unaryCrypto.hexDecode key64) [1] 32) [2] "hi")
      (by decide) (by decide) (by decide) (by decide)).2 key64 "not:a:valid:blob" "oops" h⟩

/-! ## Claim theorems: execution pass -/

/-- `sendFinalMessage` only writes to the delivery ledger, the id counter and
the audit log; switches, messages and recipients are untouched. -/
theorem sendFinalMessage_tables (c : NodeCrypto) (env : String) (emailOk : Nat → Bool)
    (db : DB) (mid now : Nat) :
    (sendFinalMessage c env emailOk db mid now).2.switches = db.switches
    ∧ (sendFinalMessage c env emailOk db mid now).2.messages = db.messages
    ∧ (sendFinalMessage c env emailOk db mid now).2.recipients = db.recipients := by
  unfold sendFinalMessage
  repeat' split
  all_goals by_cases he : emailOk db.nextId = true
  all_goals simp [he, updateDelivery, appendAudit]

/-- When every stored message decrypts and has its recipient, a send of an
existing message id never raises. -/
theorem sendFinalMessage_ok (c : NodeCrypto) (env : String) (emailOk : Nat → Bool)
    (db : DB) (mid now : Nat)
    (H : ∀ m ∈ db.messages, (decrypt c env m.encryptedContent).isOk = true
          ∧ (db.recipients.find? (fun r => r.id = m.recipientId)).isSome = true)
    (hex : ∃ m ∈ db.messages, m.id = mid) :
    ∃ b i, (sendFinalMessage c env emailOk db mid now).1 = .ok (b, i) := by
  unfold sendFinalMessage
  cases hd : db.emailDeliveries.find? (fun d => d.messageId = mid ∧ d.status = .SENT) with
  | some d => exact ⟨true, d.id, rfl⟩
  | none =>
      obtain ⟨m, hmem, hmid⟩ := hex
      have hfm : (db.messages.find? (fun x => x.id = mid)).isSome :=
        List.find?_isSome.mpr ⟨m, hmem, by simp [hmid]⟩
      obtain ⟨m2, hm2⟩ := Option.isSome_iff_exists.mp hfm
      have hmem2 : m2 ∈ db.messages := by
        have hm2b : db.messages.find? (fun x => x.id = mid) = some m2 := hm2
        exact List.mem_of_find?_eq_some hm2b
      obtain ⟨hdec2, hrec2⟩ := H m2 hmem2
      obtain ⟨r2, hr2⟩ := Option.isSome_iff_exists.mp hrec2
      rcases hdc : decrypt c env m2.encryptedContent with e | content
      · rw [hdc] at hdec2
        simp [Except.isOk, Except.toBool] at hdec2
      · simp only [hd, hm2, hr2, hdc]
        by_cases he : emailOk db.nextId = true
        · rw [if_pos he]
          exact ⟨true, db.nextId, rfl⟩
        · rw [if_neg he]
          exact ⟨false, db.nextId, rfl⟩

/-- Under the same condition the whole message loop of one switch succeeds
and leaves the switch table unchanged. -/
theorem sendMessagesLoop_ok (c : NodeCrypto) (env : String) (emailOk : Nat → Bool)
    (now swId : Nat) (recips : List RecipientRec) (db : DB) (errs : List String)
    (H : ∀ m ∈ db.messages, (decrypt c env m.encryptedContent).isOk = true
          ∧ (db.recipients.find? (fun r => r.id = m.recipientId)).isSome = true) :
    ∃ errs2 db1, sendMessagesLoop c env emailOk now swId recips db errs = (.ok errs2, db1)
      ∧ db1.switches = db.switches := by
  induction recips generalizing db errs with
  | nil => exact ⟨errs, db, rfl, rfl⟩
  | cons r rest ih =>
      cases hm : db.messages.find? (fun m => m.recipientId = r.id) with
      | none =>
          obtain ⟨errs2, db1, hloop, hsw⟩ := ih db errs H
          refine ⟨errs2, db1, ?_, hsw⟩
          unfold sendMessagesLoop
          simp only [hm]
          exact hloop
      | some m =>
          have hmem : m ∈ db.messages := by
            have hmb : db.messages.find? (fun x => x.recipientId = r.id) = some m := hm
            exact List.mem_of_find?_eq_some hmb
          obtain ⟨b, i, hsend⟩ :=
            sendFinalMessage_ok c env emailOk db m.id now H ⟨m, hmem, rfl⟩
          obtain ⟨hsw1, hmsg1, hrec1⟩ := sendFinalMessage_tables c env emailOk db m.id now
          have H1 : ∀ m2 ∈ (sendFinalMessage c env emailOk db m.id now).2.messages,
              (decrypt c env m2.encryptedContent).isOk = true
              ∧ ((sendFinalMessage c env emailOk db m.id now).2.recipients.find?
                  (fun r2 => r2.id = m2.recipientId)).isSome = true := by
            rw [hmsg1, hrec1]
            exact H
          obtain ⟨errs2, db1, hloop, hsw2⟩ :=
            ih (sendFinalMessage c env emailOk db m.id now).2
               (if b then errs
                else errs ++ ["Failed to send message " ++ toString m.id
                              ++ " for switch " ++ toString swId]) H1
          refine ⟨errs2, db1, ?_, by rw [hsw2, hsw1]⟩
          unfold sendMessagesLoop
          simp only [hm]
          rcases hp : sendFinalMessage c env emailOk db m.id now with ⟨res, db2⟩
          rw [hp] at hsend hloop
          simp only at hsend
          rw [hsend]
          cases b with
          | true => simpa using hloop
          | false => simpa using hloop

/-- A raising send (for example a ciphertext that fails to decrypt) on the
first recipient aborts the per-switch body before the EXECUTED transition:
one error entry, store unchanged. -/
theorem executeOne_raises (c : NodeCrypto) (env : String) (emailOk : Nat → Bool)
    (now : Nat) (db : DB) (sw : SwitchRec) (r : RecipientRec) (rest : List RecipientRec)
    (m : MessageRec) (e : String)
    (hrec : recipientsOf db sw.id = r :: rest)
    (hm : db.messages.find? (fun x => x.recipientId = r.id) = some m)
    (hnosent : db.emailDeliveries.find?
      (fun d => d.messageId = m.id ∧ d.status = .SENT) = none)
    (hm2 : db.messages.find? (fun x => x.id = m.id) = some m)
    (hr2 : db.recipients.find? (fun x => x.id = m.recipientId) = some r)
    (hdec : decrypt c env m.encryptedContent = .error e) :
    executeOneSwitch c env emailOk now db sw =
      ((0, ["Error executing switch " ++ toString sw.id ++ ": " ++ e]), db) := by
  unfold executeOneSwitch
  rw [hrec]
  unfold sendMessagesLoop
  simp only [hm]
  unfold sendFinalMessage
  simp only [hnosent, hm2, hr2, hdec]

/-- C2 (amended): for a switch the execution pass picks up in VERIFIED, when
no message send raises — every stored message decrypts and has a recipient —
the per-switch body attempts the sends and transitions the switch to
EXECUTED regardless of each send's success or failure (the transport oracle
`emailOk` is arbitrary); but when the first recipient's send raises (for
example its ciphertext fails to decrypt), the per-switch catch records one
error and the switch is left unchanged, still VERIFIED, not EXECUTED. -/
theorem C2_executed_regardless (c : NodeCrypto) (env : String) (emailOk : Nat → Bool)
    (now : Nat) (db : DB) (sw : SwitchRec) :
    (findSwitch db sw.id = some sw → sw.status = .VERIFIED →
      (∀ m ∈ db.messages, (decrypt c env m.encryptedContent).isOk = true
        ∧ (db.recipients.find? (fun r => r.id = m.recipientId)).isSome = true) →
      getSwitchStatus (executeOneSwitch c env emailOk now db sw).2 sw.id = some .EXECUTED
      ∧ (executeOneSwitch c env emailOk now db sw).1.1 = 1)
    ∧ (∀ r rest m e, recipientsOf db sw.id = r :: rest →
        db.messages.find? (fun x => x.recipientId = r.id) = some m →
        db.emailDeliveries.find? (fun d => d.messageId = m.id ∧ d.status = .SENT) = none →
        db.messages.find? (fun x => x.id = m.id) = some m →
        db.recipients.find? (fun x => x.id = m.recipientId) = some r →
        decrypt c env m.encryptedContent = .error e →
        executeOneSwitch c env emailOk now db sw =
          ((0, ["Error executing switch " ++ toString sw.id ++ ": " ++ e]), db)) := by
  constructor
  · intro hfind hstat H
    obtain ⟨errs2, db1, hloop, hsw1⟩ :=
      sendMessagesLoop_ok c env emailOk now sw.id (recipientsOf db sw.id) db [] H
    have hfind1 : findSwitch db1 sw.id = some sw := by
      unfold findSwitch
      rw [hsw1]
      exact hfind
    have hvalid : isValidTransition sw.status .EXECUTED = true := by
      rw [hstat]
      decide
    have hswid : sw.id = sw.id := rfl
    have htr : transitionSwitchState db1 sw.id .EXECUTED now =
        ({ success := true, previousStatus := sw.status, newStatus := .EXECUTED,
           error := none },
         appendAudit (updateSwitch db1 sw.id (transitionUpdate .EXECUTED now))
           { entityType := "switch", entityId := some sw.id,
             action := "switch_status_changed" }) := by
      unfold transitionSwitchState
      rw [hfind1]
      simp [hvalid]
    unfold executeOneSwitch
    simp only [hloop, htr, if_true]
    constructor
    · rw [getSwitchStatus_eq]
      rw [findSwitch_appendAudit, findSwitch_appendAudit]
      rw [findSwitch_updateSwitch db1 sw.id (transitionUpdate .EXECUTED now)
            (transitionUpdate_id .EXECUTED now) sw.id]
      rw [hfind1, Option.map_some', if_pos rfl, Option.map_some', transitionUpdate_status]
    · trivial
  · intro r rest m e hrec hm hnosent hm2 hr2 hdec
    exact executeOne_raises c env emailOk now db sw r rest m e hrec hm hnosent hm2 hr2 hdec

/-- A VERIFIED switch whose final delay has elapsed. -/
def swVerified : SwitchRec :=
  { id := 1, status := .VERIFIED, checkInIntervalDays := 7, gracePeriodDays := 3,
    verificationWindowDays := 5, finalDelayHours := 24, useVerifiers := false,
    requiredConfirmations := 1, lastCheckInAt := some 0, nextCheckInDueAt := none,
    gracePeriodEndsAt := none, scheduledExecutionAt := some 5 }

/-- The single recipient of `swVerified`. -/
def recipientOne : RecipientRec :=
  { id := 2, switchId := 1, email := "r1@example.com", name := none }

/-- The recipient's stored message with ciphertext `ct`. -/
def msgFor (ct : String) : MessageRec :=
  { id := 3, recipientId := 2, subject := none, encryptedContent := ct }

/-- A store ready for execution: one VERIFIED overdue switch, one recipient,
one message, an empty delivery ledger. -/
def dbExec (ct : String) : DB :=
  { emptyDB with switches := [swVerified], recipients := [recipientOne],
                 messages := [msgFor ct], nextId := 4 }

set_option maxRecDepth 40000 in
/-- C2 counterexample: with a message whose ciphertext cannot be decrypted,
`sendFinalMessage` raises, the per-switch catch records the error, and the
switch stays VERIFIED — the EXECUTED transition is prevented, contradicting
"regardless of per-message outcome ... an error-raising send does not
prevent the EXECUTED transition". -/
theorem C2_executed_regardless_counterexample :
    (executeVerifiedSwitches unaryCrypto key64 (fun _ => true) (dbExec "") 10).1.errors =
      ["Error executing switch 1: Decryption failed"]
    ∧ getSwitchStatus (executeVerifiedSwitches unaryCrypto key64 (fun _ => true)
        (dbExec "") 10).2 1 = some .VERIFIED
    ∧ SwitchStatus.VERIFIED ≠ SwitchStatus.EXECUTED := by
  refine ⟨?_, ?_, by decide⟩
  · rfl
  · rfl

/-- A well-formed ciphertext blob produced by `encrypt` under the witness
primitives. -/
def goodCipher : String :=
  match encrypt unaryCrypto key64 [1] [2] "ok" with
  | .ok pr => pr.1
  | .error _ => ""

set_option maxRecDepth 200000 in
/-- Witness for C2 (amended): with a decryptable message and a transport that
fails every send, the per-switch body still marks the switch EXECUTED. -/
theorem C2_executed_regardless_witness :
    getSwitchStatus (executeOneSwitch unaryCrypto key64 (fun _ => false) 10
        (dbExec goodCipher) swVerified).2 swVerified.id = some .EXECUTED
    ∧ (executeOneSwitch unaryCrypto key64 (fun _ => false) 10
        (dbExec goodCipher) swVerified).1.1 = 1 :=
  (C2_executed_regardless unaryCrypto key64 (fun _ => false) 10
      (dbExec goodCipher) swVerified).1
    (by decide) (by decide) (by decide)

/-- The number of SENT ledger rows for one message. -/
def countSent (db : DB) (mid : Nat) : Nat :=
  (db.emailDeliveries.filter (fun d => d.messageId = mid ∧ d.status = .SENT)).length

/-- C3: final delivery is idempotent per message — an existing SENT ledger row
short-circuits `sendFinalMessage` into returning success with the existing
row's id and writing nothing — and running the execution pass twice over the
claim's scenario (one VERIFIED due switch, one recipient, one message, empty
ledger; arbitrary cipher, ciphertext and transport outcomes) creates at most
one SENT row for the message, the second run adding none. -/
theorem C3_delivery_at_most_once (c : NodeCrypto) (env : String)
    (emailOk1 emailOk2 : Nat → Bool) (ct : String) :
    (∀ db mid now d, db.emailDeliveries.find?
        (fun x => x.messageId = mid ∧ x.status = .SENT) = some d →
      sendFinalMessage c env emailOk1 db mid now = (.ok (true, d.id), db))
    ∧ countSent (executeVerifiedSwitches c env emailOk2
          ((executeVerifiedSwitches c env emailOk1 (dbExec ct) 10).2) 20).2 3 =
        countSent ((executeVerifiedSwitches c env emailOk1 (dbExec ct) 10).2) 3
    ∧ countSent (executeVerifiedSwitches c env emailOk2
          ((executeVerifiedSwitches c env emailOk1 (dbExec ct) 10).2) 20).2 3 ≤ 1 := by
  have hidem : ∀ db mid now d, db.emailDeliveries.find?
      (fun x => x.messageId = mid ∧ x.status = .SENT) = some d →
      sendFinalMessage c env emailOk1 db mid now = (.ok (true, d.id), db) := by
    intro db mid now d hd
    unfold sendFinalMessage
    simp only [hd]
  refine ⟨hidem, ?_⟩
  rcases hdec : decrypt c env ct with e | content
  · have hone : ∀ (ek : Nat → Bool) (n : Nat),
        executeOneSwitch c env ek n (dbExec ct) swVerified =
        ((0, ["Error executing switch " ++ toString swVerified.id ++ ": " ++ e]),
         dbExec ct) := by
      intro ek n
      exact executeOne_raises c env ek n (dbExec ct) swVerified recipientOne []
        (msgFor ct) e rfl rfl rfl rfl rfl hdec
    have hpass : ∀ (ek : Nat → Bool) (n : Nat), 5 < n →
        (executeVerifiedSwitches c env ek (dbExec ct) n).2 = dbExec ct := by
      intro ek n hn
      unfold executeVerifiedSwitches
      have hfil : (dbExec ct).switches.filter
          (fun s => s.status = .VERIFIED && match s.scheduledExecutionAt with
            | some t => decide (t < n)
            | none => false) = [swVerified] := by
        show List.filter _ [swVerified] = [swVerified]
        simp [swVerified, hn]
      simp only [hfil, List.foldl_cons, List.foldl_nil, hone]
    rw [hpass emailOk1 10 (by decide), hpass emailOk2 20 (by decide)]
    exact ⟨rfl, Nat.zero_le 1⟩
  · by_cases he : emailOk1 4 = true
    · have key1 : countSent ((executeVerifiedSwitches c env emailOk1 (dbExec ct) 10).2) 3 = 1 := by
        simp [executeVerifiedSwitches, executeOneSwitch, sendMessagesLoop, sendFinalMessage,
              recipientsOf, transitionSwitchState, transitionUpdate, isValidTransition,
              VALID_TRANSITIONS, findSwitch, updateSwitch, updateDelivery, appendAudit,
              countSent, dbExec, emptyDB, swVerified, recipientOne, msgFor, hdec, he,
              List.find?, List.filter]
      have key2 : countSent (executeVerifiedSwitches c env emailOk2
          ((executeVerifiedSwitches c env emailOk1 (dbExec ct) 10).2) 20).2 3 = 1 := by
        simp [executeVerifiedSwitches, executeOneSwitch, sendMessagesLoop, sendFinalMessage,
              recipientsOf, transitionSwitchState, transitionUpdate, isValidTransition,
              VALID_TRANSITIONS, findSwitch, updateSwitch, updateDelivery, appendAudit,
              countSent, dbExec, emptyDB, swVerified, recipientOne, msgFor, hdec, he,
              List.find?, List.filter]
      rw [key1, key2]
      exact ⟨rfl, by decide⟩
    · have key1 : countSent ((executeVerifiedSwitches c env emailOk1 (dbExec ct) 10).2) 3 = 0 := by
        simp [executeVerifiedSwitches, executeOneSwitch, sendMessagesLoop, sendFinalMessage,
              recipientsOf, transitionSwitchState, transitionUpdate, isValidTransition,
              VALID_TRANSITIONS, findSwitch, updateSwitch, updateDelivery, appendAudit,
              countSent, dbExec, emptyDB, swVerified, recipientOne, msgFor, hdec, he,
              List.find?, List.filter]
      have key2 : countSent (executeVerifiedSwitches c env emailOk2
          ((executeVerifiedSwitches c env emailOk1 (dbExec ct) 10).2) 20).2 3 = 0 := by
        simp [executeVerifiedSwitches, executeOneSwitch, sendMessagesLoop, sendFinalMessage,
              recipientsOf, transitionSwitchState, transitionUpdate, isValidTransition,
              VALID_TRANSITIONS, findSwitch, updateSwitch, updateDelivery, appendAudit,
              countSent, dbExec, emptyDB, swVerified, recipientOne, msgFor, hdec, he,
              List.find?, List.filter]
      rw [key1, key2]
      exact ⟨rfl, by decide⟩

/-- An already-recorded successful delivery for message 3. -/
def sentLedgerRow : EmailDeliveryRec :=
  { id := 9, messageId := 3, provider := "nodemailer", status := .SENT,
    providerMessageId := some "p", sentAt := some 1, failedAt := none,
    attemptedAt := some 1, errorMessage := none, retryCount := 0 }

/-- The execution scenario with the SENT row already present. -/
def dbWithSent : DB := { dbExec "irrelevant" with emailDeliveries := [sentLedgerRow] }

/-- Witness for C3: the existing SENT row short-circuits `sendFinalMessage`
(returning its id, store unchanged), and the double pass over the concrete
scenario leaves at most one SENT row. -/
theorem C3_delivery_at_most_once_witness :
    sendFinalMessage unaryCrypto key64 (fun _ => true) dbWithSent 3 99 =
      (.ok (true, 9), dbWithSent)
    ∧ countSent (executeVerifiedSwitches unaryCrypto key64 (fun _ => true)
          ((executeVerifiedSwitches unaryCrypto key64 (fun _ => true)
            (dbExec goodCipher) 10).2) 20).2 3 ≤ 1 :=
  ⟨(C3_delivery_at_most_once unaryCrypto key64 (fun _ => true) (fun _ => true) "x").1
      dbWithSent 3 99 sentLedgerRow (by decide),
   (C3_delivery_at_most_once unaryCrypto key64 (fun _ => true) (fun _ => true)
      goodCipher).2.2⟩

end FinalNote
